import Mathlib

/-!
# Volume manager (`volmgr/main.go`)

A shallow embedding of the four RPC handlers of the volume manager
(`DatanodeRegistry`, `DatanodeHeartbeat`, `CreateVol`, `GetVolInfo`) over an
explicit model of the relational store they talk to.

Modelling conventions.

* The store is a record of four tables (`disks`, `blk`, `volumes`, `blkgrp`),
  each a list of rows in insertion order, plus the two auto-increment counters
  of `blk.blkid` and `blkgrp.blkgrpid`.  A `SELECT` without `ORDER BY` returns
  the matching rows in table order.
* The handlers are pure functions from the store before the call to the store
  after the call and the acknowledgement.  Every store operation that reads or
  writes a table has a switch in a fault record; a switch set to `true` makes
  that operation fail without touching the store, and the handler goes on as
  the source does with the error (return, log and continue, or ignore).
* `ORDER BY rand()` and the choice of the row that supplies `blkid` for a
  `GROUP BY hostip` group are driven by an explicit oracle (`Rand`), so that
  every outcome the database may produce is the outcome of some oracle.
* Go `int` is an unbounded integer; conversions to `int32` wrap explicitly
  (`toInt32`).  Go strings that the code takes apart (`blkgrp.blks`) are lists
  of characters; strings that are only stored and compared are `String`.
* A Go run-time panic (nil statement, index out of range) is the result `none`
  in place of an acknowledgement.
-/

namespace VolMgr

/-! ## Integers and strings -/

/-- Block size in G; `init` sets `blksize = 10`. -/
def blksize : Int := 10

/-- Conversion of a Go integer to `int32` (two's complement wrap-around). -/
def toInt32 (x : Int) : Int := (x + 2147483648) % 4294967296 - 2147483648

/-- Whether a stored integer fits a Go `int32` variable. -/
def inInt32 (x : Int) : Bool := decide (-2147483648 ≤ x ∧ x ≤ 2147483647)

/-- The decimal digit character of a number below ten. -/
def digitChar (d : Nat) : Char :=
  match d with
  | 0 => '0' | 1 => '1' | 2 => '2' | 3 => '3' | 4 => '4'
  | 5 => '5' | 6 => '6' | 7 => '7' | 8 => '8' | _ => '9'

/-- Decimal digits of `n`, most significant first, in front of `acc`. The first
argument bounds the number of digits. -/
def natDigits : Nat → Nat → List Char → List Char
  | 0, _, acc => acc
  | fuel + 1, n, acc =>
    if n < 10 then digitChar n :: acc
    else natDigits fuel (n / 10) (digitChar (n % 10) :: acc)

/-- Go `strconv.Itoa`. -/
def Itoa (i : Int) : List Char :=
  if i < 0 then '-' :: natDigits (i.natAbs + 1) i.natAbs []
  else natDigits (i.natAbs + 1) i.natAbs []

/-- Value of a decimal digit character. -/
def digitVal (c : Char) : Option Nat :=
  if 48 ≤ c.toNat ∧ c.toNat ≤ 57 then some (c.toNat - 48) else none

/-- Reads a run of decimal digits on top of the value `acc`; `none` when a
character is not a digit. -/
def parseDigits : List Char → Nat → Option Nat
  | [], acc => some acc
  | c :: cs, acc =>
    match digitVal c with
    | none => none
    | some d => parseDigits cs (acc * 10 + d)

/-- Go `strconv.Atoi`: the value and whether the text was a number. On a syntax
error (empty text, a lone sign, a character that is not a digit) the value is 0. -/
def Atoi (s : List Char) : Int × Bool :=
  match s with
  | [] => (0, false)
  | c :: cs =>
    if c = '-' then
      if cs = [] then (0, false)
      else match parseDigits cs 0 with
        | some n => (-(n : Int), true)
        | none => (0, false)
    else if c = '+' then
      if cs = [] then (0, false)
      else match parseDigits cs 0 with
        | some n => ((n : Int), true)
        | none => (0, false)
    else match parseDigits (c :: cs) 0 with
      | some n => ((n : Int), true)
      | none => (0, false)

/-- Go `strings.Split(s, ",")`. -/
def Split : List Char → List (List Char)
  | [] => [[]]
  | c :: cs =>
    if c = ',' then [] :: Split cs
    else match Split cs with
      | [] => [[c]]
      | h :: t => (c :: h) :: t

/-! ## The store -/

/-- A row of table `disks`. -/
structure Disk where
  ip : String
  port : Int
  mount : String
  total : Int
  used : Int
  free : Int
  statu : Int
  deriving DecidableEq, Repr

/-- A row of table `blk`. -/
structure Blk where
  blkid : Int
  hostip : String
  hostport : Int
  allocated : Int
  disabled : Int
  deriving DecidableEq, Repr

/-- A row of table `volumes`. -/
structure Volume where
  uuid : String
  name : String
  size : Int
  deriving DecidableEq, Repr

/-- A row of table `blkgrp`. -/
structure Blkgrp where
  blkgrpid : Int
  blks : List Char
  volume_uuid : String
  deriving DecidableEq, Repr

/-- Modelled from the spec: the table declarations are not part of the source.
The columns are those the SQL statements of `main.go` name; `blkid` and
`blkgrpid` are auto-increment keys, and the columns an `INSERT` leaves out
(`used`, `free`, `statu`, `disabled`) default to 0. -/
structure Store where
  disks : List Disk
  blk : List Blk
  volumes : List Volume
  blkgrp : List Blkgrp
  nextBlkid : Int
  nextBlkgrpid : Int
  deriving DecidableEq, Repr

/-- The store with no rows; auto-increment keys start at 1. -/
def emptyStore : Store :=
  { disks := [], blk := [], volumes := [], blkgrp := [], nextBlkid := 1, nextBlkgrpid := 1 }

/-- `INSERT INTO disks(ip,port,mount,total) VALUES(?, ?, ?, ?)`. -/
def Store.insertDisk (st : Store) (ip : String) (port : Int) (mount : String)
    (total : Int) : Store :=
  { st with disks := st.disks ++
      [{ ip := ip, port := port, mount := mount, total := total,
         used := 0, free := 0, statu := 0 }] }

/-- `INSERT INTO blk(hostip, hostport, allocated) VALUES(?, ?, ?)`. -/
def Store.insertBlk (st : Store) (hostip : String) (hostport : Int) (allocated : Int) :
    Store :=
  { st with
    blk := st.blk ++
      [{ blkid := st.nextBlkid, hostip := hostip, hostport := hostport,
         allocated := allocated, disabled := 0 }]
    nextBlkid := st.nextBlkid + 1 }

/-- `UPDATE disks SET used=?,free=?,statu=? WHERE ip=? and port=?`. -/
def Store.updateDisk (st : Store) (used free statu : Int) (ip : String) (port : Int) :
    Store :=
  { st with disks := st.disks.map fun d =>
      if d.ip = ip ∧ d.port = port then
        { d with used := used, free := free, statu := statu }
      else d }

/-- `UPDATE blk SET disabled=1 WHERE hostip=? and hostport=?`. -/
def Store.disableBlks (st : Store) (ip : String) (port : Int) : Store :=
  { st with blk := st.blk.map fun b =>
      if b.hostip = ip ∧ b.hostport = port then { b with disabled := 1 } else b }

/-- `UPDATE blk SET allocated=1 WHERE blkid=?`. -/
def Store.markAllocated (st : Store) (blkid : Int) : Store :=
  { st with blk := st.blk.map fun b =>
      if b.blkid = blkid then { b with allocated := 1 } else b }

/-- `INSERT INTO volumes(uuid, name, size) VALUES(?, ?, ?)`. -/
def Store.insertVolume (st : Store) (uuid name : String) (size : Int) : Store :=
  { st with volumes := st.volumes ++ [{ uuid := uuid, name := name, size := size }] }

/-- `INSERT INTO blkgrp(blks, volume_uuid) VALUES(?, ?)`. -/
def Store.insertBlkgrp (st : Store) (blks : List Char) (uuid : String) : Store :=
  { st with
    blkgrp := st.blkgrp ++
      [{ blkgrpid := st.nextBlkgrpid, blks := blks, volume_uuid := uuid }]
    nextBlkgrpid := st.nextBlkgrpid + 1 }

/-! ## DatanodeRegistry -/

/-- Acknowledgement of `DatanodeRegistry`. -/
structure DatanodeRegistryAck where
  Ret : Int
  StartBlockID : Int
  EndBlockID : Int
  deriving DecidableEq, Repr

/-- Store operations of `DatanodeRegistry` that may fail. -/
structure RegistryFaults where
  prepareDisk : Bool
  execDisk : Bool
  prepareBlk : Bool
  execBlk : Nat → Bool
  query : Bool
  scan : Nat → Bool

/-- The block-insert loop `for i := int32(0); i < blkcount; i++`; the result of
`blk.Exec` is dropped, so a failed insert is skipped. -/
def insertBlks (f : RegistryFaults) (hostip : String) (hostport : Int) :
    Nat → Nat → Store → Store
  | 0, _, st => st
  | n + 1, i, st =>
    insertBlks f hostip hostport n (i + 1)
      (if f.execBlk i then st else st.insertBlk hostip hostport 0)

/-- The loop over the rows of the `blkid` query: a failed `Scan` is only logged
and the previous value of `blkid` is appended again. -/
def scanBlkids (f : RegistryFaults) : Nat → List Int → Int → List Int → List Int
  | _, [], _, acc => acc
  | j, r :: rs, blkid, acc =>
    if f.scan j then scanBlkids f (j + 1) rs blkid (acc ++ [blkid])
    else scanBlkids f (j + 1) rs r (acc ++ [r])

/-- Handler `DatanodeRegistry`; `ip` is the text of `utils.Inet_ntoa(in.Ip)`.
A statement or row set that could not be obtained is a nil pointer and its first use
panics; `blkids[0]` panics on an empty slice. -/
def DatanodeRegistry (f : RegistryFaults) (st : Store) (ip : String) (port : Int)
    (mount : String) (capacity : Int) : Store × Option DatanodeRegistryAck :=
  if f.prepareDisk then (st, none)
  else
    let st1 := if f.execDisk then st else st.insertDisk ip port mount capacity
    let blkcount := Int.tdiv capacity blksize
    if f.prepareBlk then (st1, none)
    else
      let st2 := insertBlks f ip port blkcount.toNat 0 st1
      if f.query then (st2, none)
      else
        let rows := (st2.blk.filter fun b => b.hostip = ip ∧ b.hostport = port).map
          fun b => b.blkid
        let blkids := (scanBlkids f 0 rows 0 []).insertionSort (· ≤ ·)
        match blkids.head?, blkids.getLast? with
        | some first, some last =>
          (st2, some { Ret := 0, StartBlockID := toInt32 first, EndBlockID := toInt32 last })
        | _, _ => (st2, none)

/-! ## DatanodeHeartbeat -/

/-- Acknowledgement of `DatanodeHeartbeat`; the handler never sets `Ret`. -/
structure DatanodeHeartbeatAck where
  Ret : Int
  deriving DecidableEq, Repr

/-- Store operations of `DatanodeHeartbeat` that may fail. -/
structure HeartbeatFaults where
  prepareDisk : Bool
  execDisk : Bool
  prepareBlk : Bool
  execBlk : Bool

/-- Handler `DatanodeHeartbeat`. -/
def DatanodeHeartbeat (f : HeartbeatFaults) (st : Store) (ip : String) (port : Int)
    (used free statu : Int) : Store × Option DatanodeHeartbeatAck :=
  if f.prepareDisk then (st, none)
  else if f.execDisk then (st, some { Ret := 0 })
  else
    let st1 := st.updateDisk used free statu ip port
    if statu ≠ 0 then
      if f.prepareBlk then (st1, none)
      else if f.execBlk then (st1, some { Ret := 0 })
      else (st1.disableBlks ip port, some { Ret := 0 })
    else (st1, some { Ret := 0 })

/-! ## CreateVol -/

/-- Acknowledgement of `CreateVol`. -/
structure CreateVolAck where
  Ret : Int
  UUID : String
  deriving DecidableEq, Repr

/-- Store operations of `CreateVol` that may fail; the numbers are the block
group iteration and the row within it. -/
structure CreateVolFaults where
  prepareVol : Bool
  execVol : Bool
  query : Nat → Bool
  scan : Nat → Nat → Bool
  prepareBlk : Nat → Nat → Bool
  execBlk : Nat → Nat → Bool
  prepareGrp : Nat → Bool
  execGrp : Nat → Bool

/-- The choices the database makes in the block query of iteration `i`:
`pick i h` selects the row of the `hostip = h` group whose `blkid` is returned,
`ord i k` is the `k`-th draw of `ORDER BY rand()`. -/
structure Rand where
  pick : Nat → String → Nat
  ord : Nat → Nat → Nat

/-- The number of block groups of a volume of size `volsize` (an `int32`). -/
def blkgrpnum (volsize : Int) : Int :=
  if volsize < blksize then 1
  else if Int.tmod volsize blksize = 0 then toInt32 (Int.tdiv volsize blksize)
  else toInt32 (Int.tdiv volsize blksize + 1)

/-- The distinct `hostip` values of some rows, in order of first appearance. -/
def hostips : List Blk → List String
  | [] => []
  | b :: bs => b.hostip :: (hostips bs).filter fun h => h ≠ b.hostip

/-- A random order of a list: `n` draws, each taking one of the remaining
elements. -/
def shuffle {α : Type} (draw : Nat → Nat) : Nat → List α → List α
  | 0, _ => []
  | n + 1, l =>
    match l[draw n % l.length]? with
    | none => []
    | some x => x :: shuffle draw n (l.eraseIdx (draw n % l.length))

/-- The grouped rows of `... FROM blk WHERE allocated = 0 group by hostip`: for
every distinct `hostip` among the unallocated blocks, some row of that group
(the database is free in which one supplies a column that is not grouped). -/
def groupRows (rd : Rand) (i : Nat) (blk : List Blk) : List Blk :=
  (hostips (blk.filter fun b => b.allocated = 0)).filterMap fun h =>
    let g := (blk.filter fun b => b.allocated = 0).filter fun b => b.hostip = h
    g[rd.pick i h % g.length]?

/-- `SELECT blkid FROM blk WHERE allocated = 0 group by hostip ORDER BY rand()
LIMIT 3 FOR UPDATE`: the grouped rows in random order, cut after three, of
which the `blkid` column is returned. -/
def selectBlks (rd : Rand) (i : Nat) (blk : List Blk) : List Int :=
  let rows := groupRows rd i blk
  ((shuffle (rd.ord i) rows.length rows).take 3).map fun b => b.blkid

/-- The loop `for rows.Next()` of iteration `i`: marks each selected block
allocated and appends its id to `blks`. `none` is an early `ack.Ret = 1`
return. -/
def allocRows (f : CreateVolFaults) (i : Nat) :
    Nat → List Int → Store → List Char → Store × Option (List Char)
  | _, [], st, blks => (st, some blks)
  | j, blkid :: rest, st, blks =>
    if f.scan i j then (st, none)
    else if f.prepareBlk i j then (st, none)
    else if f.execBlk i j then (st, none)
    else allocRows f i (j + 1) rest (st.markAllocated blkid) (blks ++ Itoa blkid ++ [','])

/-- The body of the allocation loop for block group `i`. The second component is
`none` on an early `ack.Ret = 1` return and otherwise the rows the block query
returned. -/
def allocGroup (f : CreateVolFaults) (rd : Rand) (voluuid : String) (i : Nat)
    (st : Store) : Store × Option (List Int) :=
  if f.query i then (st, none)
  else
    let rows := selectBlks rd i st.blk
    match allocRows f i 0 rows st [] with
    | (st1, none) => (st1, none)
    | (st1, some blks) =>
      if f.prepareGrp i then (st1, none)
      else if f.execGrp i then (st1, some rows)
      else (st1.insertBlkgrp blks voluuid, some rows)

/-- The allocation loop `for i := int32(0); i < blkgrpnum; i++` with `n`
iterations left. Returns the store, `ack.Ret`, and (for the statements below) the
list of the rows selected by the completed iterations. -/
def allocGroups (f : CreateVolFaults) (rd : Rand) (voluuid : String) :
    Nat → Nat → Store → List (List Int) → Store × Int × List (List Int)
  | 0, _, st, sel => (st, 0, sel)
  | n + 1, i, st, sel =>
    match allocGroup f rd voluuid i st with
    | (st1, none) => (st1, 1, sel)
    | (st1, some rows) => allocGroups f rd voluuid n (i + 1) st1 (sel ++ [rows])

/-- Handler `CreateVol`; `voluuid` is the result of `utils.GenUUID()`. The third
component lists the block ids selected for each completed group. -/
def CreateVol (f : CreateVolFaults) (rd : Rand) (voluuid : String) (st : Store)
    (volname : String) (volsize : Int) : Store × CreateVolAck × List (List Int) :=
  if f.prepareVol then (st, { Ret := 1, UUID := "" }, [])
  else
    let st1 := if f.execVol then st else st.insertVolume voluuid volname volsize
    match allocGroups f rd voluuid (blkgrpnum volsize).toNat 0 st1 [] with
    | (st2, ret, sel) =>
      (st2, { Ret := ret, UUID := if ret = 0 then voluuid else "" }, sel)

/-! ## GetVolInfo -/

/-- Protobuf message `BlockInfo`. -/
structure BlockInfo where
  BlockID : Int
  DataNodeIP : Int
  DataNodePort : Int
  deriving DecidableEq, Repr

/-- Protobuf message `BlockGroup`. -/
structure BlockGroup where
  BlockGroupID : Int
  BlockInfos : List BlockInfo
  deriving DecidableEq, Repr

/-- Protobuf message `VolInfo`. -/
structure VolInfo where
  VolID : String
  VolName : String
  SpaceQuota : Int
  BlockGroups : List BlockGroup
  deriving DecidableEq, Repr

/-- Acknowledgement of `GetVolInfo`. -/
structure GetVolInfoAck where
  Ret : Int
  VolInfo : Option VolInfo
  deriving DecidableEq, Repr

/-- Store operations of `GetVolInfo` that may fail; the numbers are the row of
`volumes`, the block group, the element of its `blks` text and the row of `blk`. -/
structure GetVolInfoFaults where
  queryVol : Bool
  scanVol : Nat → Bool
  queryGrp : Bool
  scanGrp : Nat → Bool
  queryBlk : Nat → Nat → Bool
  scanBlk : Nat → Nat → Nat → Bool

/-- The loop `for vols.Next()`: every row overwrites id, name and quota. `Scan`
reads `size` into an `int32` variable and reports an error for a stored value
that does not fit. -/
def scanVols (f : GetVolInfoFaults) (voluuid : String) :
    Nat → List Volume → String × String × Int → Option (String × String × Int)
  | _, [], acc => some acc
  | j, v :: vs, _ =>
    if f.scanVol j || !inInt32 v.size then none
    else scanVols f voluuid (j + 1) vs (voluuid, v.name, v.size)

/-- The loop `for blk.Next()` for element `e` of group `g`. -/
def scanBlkRows (f : GetVolInfoFaults) (aton : String → Int) (g e : Nat) (blkid : Int) :
    Nat → List Blk → List BlockInfo → Option (List BlockInfo)
  | _, [], acc => some acc
  | k, b :: bs, acc =>
    if f.scanBlk g e k then none
    else scanBlkRows f aton g e blkid (k + 1) bs
      (acc ++ [{ BlockID := toInt32 blkid, DataNodeIP := aton b.hostip,
                 DataNodePort := toInt32 b.hostport }])

/-- The loop `for _, ele := range blkids` of group `g`; the error of `Atoi`
is dropped. -/
def resolveEles (f : GetVolInfoFaults) (aton : String → Int) (st : Store) (g : Nat) :
    Nat → List (List Char) → List BlockInfo → Option (List BlockInfo)
  | _, [], acc => some acc
  | e, ele :: rest, acc =>
    if ele = [','] then resolveEles f aton st g (e + 1) rest acc
    else
      let blkid := (Atoi ele).1
      if f.queryBlk g e then none
      else
        match scanBlkRows f aton g e blkid 0 (st.blk.filter fun b => b.blkid = blkid) acc with
        | none => none
        | some acc1 => resolveEles f aton st g (e + 1) rest acc1

/-- The loop `for blkgrp.Next()`. -/
def resolveGrps (f : GetVolInfoFaults) (aton : String → Int) (st : Store) :
    Nat → List Blkgrp → List BlockGroup → Option (List BlockGroup)
  | _, [], acc => some acc
  | g, r :: rs, acc =>
    if f.scanGrp g then none
    else
      match resolveEles f aton st g 0 (Split r.blks) [] with
      | none => none
      | some infos =>
        resolveGrps f aton st (g + 1) rs
          (acc ++ [{ BlockGroupID := toInt32 r.blkgrpid, BlockInfos := infos }])

/-- Handler `GetVolInfo`; `aton` is `utils.Inet_aton(net.ParseIP(·))`. -/
def GetVolInfo (f : GetVolInfoFaults) (aton : String → Int) (st : Store)
    (voluuid : String) : GetVolInfoAck :=
  if f.queryVol then { Ret := 1, VolInfo := none }
  else
    match scanVols f voluuid 0 (st.volumes.filter fun v => v.uuid = voluuid) ("", "", 0) with
    | none => { Ret := 1, VolInfo := none }
    | some (volID, volName, quota) =>
      if f.queryGrp then { Ret := 1, VolInfo := none }
      else
        match resolveGrps f aton st 0
            (st.blkgrp.filter fun r => r.volume_uuid = voluuid) [] with
        | none => { Ret := 1, VolInfo := none }
        | some groups =>
          { Ret := 0,
            VolInfo := some { VolID := volID, VolName := volName, SpaceQuota := quota,
                              BlockGroups := groups } }

/-! ## Fault-free runs and observations -/

/-- Every store operation of `DatanodeRegistry` succeeds. -/
def noRegistryFaults : RegistryFaults :=
  { prepareDisk := false, execDisk := false, prepareBlk := false,
    execBlk := fun _ => false, query := false, scan := fun _ => false }

/-- Every store operation of `DatanodeHeartbeat` succeeds. -/
def noHeartbeatFaults : HeartbeatFaults :=
  { prepareDisk := false, execDisk := false, prepareBlk := false, execBlk := false }

/-- Every store operation of `CreateVol` succeeds. -/
def noCreateVolFaults : CreateVolFaults :=
  { prepareVol := false, execVol := false, query := fun _ => false,
    scan := fun _ _ => false, prepareBlk := fun _ _ => false,
    execBlk := fun _ _ => false, prepareGrp := fun _ => false,
    execGrp := fun _ => false }

/-- Every store operation of `GetVolInfo` succeeds. -/
def noGetVolInfoFaults : GetVolInfoFaults :=
  { queryVol := false, scanVol := fun _ => false, queryGrp := false,
    scanGrp := fun _ => false, queryBlk := fun _ _ => false,
    scanBlk := fun _ _ _ => false }

/-- The oracle that always draws 0. -/
def zeroRand : Rand := { pick := fun _ _ => 0, ord := fun _ _ => 0 }

/-- The text `CreateVol` builds from the ids of one group: every id in decimal,
each followed by a comma. -/
def joinIds (ids : List Int) : List Char :=
  (ids.map fun id => Itoa id ++ [',']).flatten

/-- The rows of `blk` with the blocks of the given ids marked allocated; every
other column is as before. -/
def markBlks (ids : List Int) (blk : List Blk) : List Blk :=
  blk.map fun b => if b.blkid ∈ ids then { b with allocated := 1 } else b

/-- The store with the blocks of the given ids marked allocated; every other
table is as before. -/
def Store.markAll (st : Store) (ids : List Int) : Store :=
  { st with blk := markBlks ids st.blk }

/-- The rows the block query returns in `n` successive iterations starting with
iteration `i`, each iteration marking its rows before the next one selects. -/
def selections (rd : Rand) : Nat → Nat → List Blk → List (List Int)
  | 0, _, _ => []
  | n + 1, i, blk =>
    selectBlks rd i blk :: selections rd n (i + 1) (markBlks (selectBlks rd i blk) blk)

/-- The `blkgrp` rows written for the given selections, numbered from `first`. -/
def mkGroups (uuid : String) : Int → List (List Int) → List Blkgrp
  | _, [] => []
  | first, rows :: rest =>
    { blkgrpid := first, blks := joinIds rows, volume_uuid := uuid } ::
      mkGroups uuid (first + 1) rest

/-- The `BlockInfo` built for block id `blkid` from a row of `blk`. -/
def blockInfoOf (aton : String → Int) (blkid : Int) (b : Blk) : BlockInfo :=
  { BlockID := toInt32 blkid, DataNodeIP := aton b.hostip, DataNodePort := toInt32 b.hostport }

/-- The `BlockInfo`s one element of a split `blks` text resolves to when every
lookup succeeds. -/
def eleInfos (aton : String → Int) (st : Store) (ele : List Char) : List BlockInfo :=
  if ele = [','] then []
  else (st.blk.filter fun b => b.blkid = (Atoi ele).1).map (blockInfoOf aton (Atoi ele).1)

/-- The `BlockGroup` a `blkgrp` row resolves to when every lookup succeeds. -/
def groupOf (aton : String → Int) (st : Store) (r : Blkgrp) : BlockGroup :=
  { BlockGroupID := toInt32 r.blkgrpid,
    BlockInfos := (Split r.blks).flatMap (eleInfos aton st) }

/-- The number of unallocated blocks on address `h`. -/
def freeOn (blk : List Blk) (h : String) : Nat :=
  blk.countP fun b => b.allocated = 0 ∧ b.hostip = h

/-- The ids of the blocks owned by datanode `ip:port`, in table order. -/
def Store.hostBlkids (st : Store) (ip : String) (port : Int) : List Int :=
  (st.blk.filter fun b => b.hostip = ip ∧ b.hostport = port).map fun b => b.blkid

/-- The rows `n` successful block inserts for `ip:port` append when the next
key is `first`. -/
def newBlks (first : Int) (ip : String) (port : Int) (n : Nat) : List Blk :=
  (List.range n).map fun (k : Nat) =>
    { blkid := first + (k : Int), hostip := ip, hostport := port, allocated := 0,
      disabled := 0 }

/-- Datanode `10.0.0.1:8000` registered with capacity 20 (blocks 1, 2), then
datanode `10.0.0.2:8000` with capacity 10 (block 3). -/
def twoRegistered : Store :=
  (DatanodeRegistry noRegistryFaults
    (DatanodeRegistry noRegistryFaults emptyStore "10.0.0.1" 8000 "/data" 20).1
    "10.0.0.2" 8000 "/data" 10).1

/-- The example of the specification: three datanodes on three addresses
registered with capacity 100, owning blocks 1-10, 11-20 and 21-30. -/
def threeDisks : Store :=
  (DatanodeRegistry noRegistryFaults
    (DatanodeRegistry noRegistryFaults
      (DatanodeRegistry noRegistryFaults emptyStore "10.0.0.1" 8000 "/data" 100).1
      "10.0.0.2" 8000 "/data" 100).1
    "10.0.0.3" 8000 "/data" 100).1

/-- Three datanodes on one address, ports 8001 to 8003, one block each. -/
def oneAddress : Store :=
  (DatanodeRegistry noRegistryFaults
    (DatanodeRegistry noRegistryFaults
      (DatanodeRegistry noRegistryFaults emptyStore "10.0.0.1" 8001 "/data" 10).1
      "10.0.0.1" 8002 "/data" 10).1
    "10.0.0.1" 8003 "/data" 10).1

/-- Three datanodes on three addresses, one block each (ids 1, 2, 3). -/
def threeHosts : Store :=
  (DatanodeRegistry noRegistryFaults
    (DatanodeRegistry noRegistryFaults
      (DatanodeRegistry noRegistryFaults emptyStore "10.0.0.1" 8000 "/data" 10).1
      "10.0.0.2" 8000 "/data" 10).1
    "10.0.0.3" 8000 "/data" 10).1

/-- The store after the datanode `10.0.0.1:8000` of `threeHosts` has reported a
fault (status 1). -/
def faultyHost : Store :=
  (DatanodeHeartbeat noHeartbeatFaults threeHosts "10.0.0.1" 8000 0 0 1).1

/-- The second block update of the first group fails; everything else succeeds. -/
def secondUpdateFails : CreateVolFaults :=
  { noCreateVolFaults with execBlk := fun i j => i == 0 && j == 1 }

/-- An address conversion for the examples. -/
def atonLength : String → Int := fun ip => ip.length

/-- The block ids recorded in the `blks` text of a `blkgrp` row: the non-empty
comma-separated elements, read as numbers. -/
def blkgrpIds (blks : List Char) : List Int :=
  ((Split blks).filter fun e => e ≠ []).map fun e => (Atoi e).1

/-- All block ids recorded in the `blkgrp` table, row after row. -/
def Store.groupedIds (st : Store) : List Int :=
  (st.blkgrp.map fun r => blkgrpIds r.blks).flatten

/-- The block ids recorded in the `blkgrp` rows of volume `uuid`. -/
def Store.volumeIds (st : Store) (uuid : String) : List Int :=
  ((st.blkgrp.filter fun r => r.volume_uuid = uuid).map fun r => blkgrpIds r.blks).flatten

/-- The rows of iteration `i` that the row loop marks before it stops: all rows
up to the first one at which `Scan`, `Prepare` or `Exec` fails. -/
def doneRows (f : CreateVolFaults) (i : Nat) : Nat → List Int → List Int
  | _, [] => []
  | j, blkid :: rest =>
    if f.scan i j || f.prepareBlk i j || f.execBlk i j then []
    else blkid :: doneRows f i (j + 1) rest

/-- The blocks an iteration `i` that gives up has marked by then: none when the
block query fails, otherwise the rows the row loop got through. -/
def failedMarks (f : CreateVolFaults) (rd : Rand) (i : Nat) (blk : List Blk) : List Int :=
  if f.query i then [] else doneRows f i 0 (selectBlks rd i blk)

/-- The `blkgrp` rows the completed iterations `i, i + 1, ...` leave for the given
selections: one row per iteration whose group insert took effect, numbered
from `first`. -/
def keptGroups (f : CreateVolFaults) (uuid : String) : Int → Nat → List (List Int) → List Blkgrp
  | _, _, [] => []
  | first, i, rows :: rest =>
    if f.execGrp i then keptGroups f uuid first (i + 1) rest
    else { blkgrpid := first, blks := joinIds rows, volume_uuid := uuid } ::
      keptGroups f uuid (first + 1) (i + 1) rest

/-- A store whose auto-increment counter of `blkid` has passed `2^31`: three
datanodes on three addresses with one unallocated block each. -/
def bigIds : Store :=
  { disks := [],
    blk := [{ blkid := 2147483648, hostip := "10.0.0.1", hostport := 8000, allocated := 0,
              disabled := 0 },
            { blkid := 2147483649, hostip := "10.0.0.2", hostport := 8000, allocated := 0,
              disabled := 0 },
            { blkid := 2147483650, hostip := "10.0.0.3", hostport := 8000, allocated := 0,
              disabled := 0 }],
    volumes := [], blkgrp := [], nextBlkid := 2147483651, nextBlkgrpid := 1 }

/-- The volume insert fails (its error is dropped); everything else succeeds. -/
def volumeInsertFails : CreateVolFaults :=
  { noCreateVolFaults with execVol := true }

/-- Every group insert fails (its error is dropped); everything else succeeds. -/
def groupInsertsFail : CreateVolFaults :=
  { noCreateVolFaults with execGrp := fun _ => true }

/-- The stores reachable from the empty store by sequential calls of
`DatanodeRegistry`, `DatanodeHeartbeat` and `CreateVol` with any arguments, any
choices of the database, and any store operations failing (in particular none). -/
inductive Reachable : Store → Prop
  | empty : Reachable emptyStore
  | registry {st : Store} (f : RegistryFaults) (ip : String) (port : Int) (mount : String)
      (capacity : Int) :
      Reachable st → Reachable (DatanodeRegistry f st ip port mount capacity).1
  | heartbeat {st : Store} (f : HeartbeatFaults) (ip : String) (port used free statu : Int) :
      Reachable st → Reachable (DatanodeHeartbeat f st ip port used free statu).1
  | createVol {st : Store} (f : CreateVolFaults) (rd : Rand) (uuid name : String)
      (size : Int) :
      Reachable st → Reachable (CreateVol f rd uuid st name size).1

/-- The invariant behind the uniqueness of grouped blocks: `blkid` is a key of
`blk` below the auto-increment counter, every grouped id is the id of an
allocated block, and no id is grouped twice. -/
def Store.Inv (st : Store) : Prop :=
  (st.blk.map fun b => b.blkid).Nodup ∧
  (∀ b ∈ st.blk, b.blkid < st.nextBlkid) ∧
  (∀ id ∈ st.groupedIds, ∃ b ∈ st.blk, b.blkid = id ∧ b.allocated = 1) ∧
  st.groupedIds.Nodup

/-! ## Decimal text of block ids -/

theorem digitVal_digitChar (d : Nat) (h : d < 10) : digitVal (digitChar d) = some d := by
  interval_cases d <;> rfl

theorem digitChar_ne_comma (d : Nat) : digitChar d ≠ ',' := by
  unfold digitChar
  split <;> decide

theorem digitChar_ne_minus (d : Nat) : digitChar d ≠ '-' := by
  unfold digitChar
  split <;> decide

theorem digitChar_ne_plus (d : Nat) : digitChar d ≠ '+' := by
  unfold digitChar
  split <;> decide

/-- The digits written by `natDigits` are read back by `parseDigits`. -/
theorem natDigits_spec (fuel : Nat) : ∀ (n : Nat) (acc : List Char), n < fuel →
    ∃ ds : List Char, natDigits fuel n acc = ds ++ acc ∧ ds ≠ [] ∧
      (∀ c ∈ ds, ∃ d, c = digitChar d) ∧
      ∀ (a : Nat) (rest : List Char),
        parseDigits (ds ++ rest) a = parseDigits rest (a * 10 ^ ds.length + n) := by
  induction fuel with
  | zero => intro n acc h; omega
  | succ fuel ih =>
    intro n acc h
    unfold natDigits
    by_cases hn : n < 10
    · refine ⟨[digitChar n], by simp [hn], by simp, ?_, ?_⟩
      · intro c hc
        exact ⟨n, by simpa using hc⟩
      · intro a rest
        simp [parseDigits, digitVal_digitChar n hn]
    · have hlt : n / 10 < fuel := by omega
      obtain ⟨ds, h1, h2, h3, h4⟩ := ih (n / 10) (digitChar (n % 10) :: acc) hlt
      refine ⟨ds ++ [digitChar (n % 10)], by simp [hn, h1], by simp, ?_, ?_⟩
      · intro c hc
        rcases List.mem_append.mp hc with hc | hc
        · exact h3 c hc
        · exact ⟨n % 10, by simpa using hc⟩
      · intro a rest
        have hd : digitVal (digitChar (n % 10)) = some (n % 10) :=
          digitVal_digitChar _ (Nat.mod_lt _ (by decide))
        rw [List.append_assoc, h4]
        simp only [List.singleton_append, parseDigits, hd, List.length_append,
          List.length_singleton]
        congr 1
        rw [pow_succ]
        have := Nat.div_add_mod n 10
        nlinarith [Nat.div_add_mod n 10]

theorem Atoi_Itoa (i : Int) : Atoi (Itoa i) = (i, true) := by
  obtain ⟨ds, h1, h2, h3, h4⟩ := natDigits_spec (i.natAbs + 1) i.natAbs [] (by omega)
  have hp : parseDigits ds 0 = some i.natAbs := by
    have := h4 0 []
    simpa [parseDigits] using this
  rw [List.append_nil] at h1
  unfold Itoa
  by_cases hi : i < 0
  · rw [if_pos hi, h1]
    simp only [Atoi, if_true, h2, if_false, hp]
    congr 1
    omega
  · rw [if_neg hi, h1]
    cases ds with
    | nil => exact absurd rfl h2
    | cons c cs =>
      obtain ⟨d, hd⟩ := h3 c (by simp)
      have hm : c ≠ '-' := hd ▸ digitChar_ne_minus d
      have hpl : c ≠ '+' := hd ▸ digitChar_ne_plus d
      simp only [Atoi, if_neg hm, if_neg hpl, hp]
      congr 1
      omega

theorem Itoa_ne_nil (i : Int) : Itoa i ≠ [] := by
  obtain ⟨ds, h1, h2, _, _⟩ := natDigits_spec (i.natAbs + 1) i.natAbs [] (by omega)
  rw [List.append_nil] at h1
  unfold Itoa
  split
  · simp
  · rw [h1]; exact h2

theorem comma_not_mem_Itoa (i : Int) : ',' ∉ Itoa i := by
  obtain ⟨ds, h1, _, h3, _⟩ := natDigits_spec (i.natAbs + 1) i.natAbs [] (by omega)
  rw [List.append_nil] at h1
  have hds : ',' ∉ ds := by
    intro hc
    obtain ⟨d, hd⟩ := h3 _ hc
    exact digitChar_ne_comma d hd.symm
  unfold Itoa
  split
  · rw [h1]
    intro hc
    rcases List.mem_cons.mp hc with hc | hc
    · exact absurd hc (by decide)
    · exact hds hc
  · rw [h1]; exact hds

theorem Split_append_comma (s rest : List Char) (h : ',' ∉ s) :
    Split (s ++ ',' :: rest) = s :: Split rest := by
  induction s with
  | nil => simp [Split]
  | cons c s ih =>
    have hc : c ≠ ',' := fun e => h (by simp [e])
    have hs : ',' ∉ s := fun e => h (by simp [e])
    simp [Split, hc, ih hs]

theorem Split_joinIds (ids : List Int) : Split (joinIds ids) = ids.map Itoa ++ [[]] := by
  induction ids with
  | nil => simp [joinIds, Split]
  | cons id ids ih =>
    have : joinIds (id :: ids) = Itoa id ++ ',' :: joinIds ids := by
      simp [joinIds]
    rw [this, Split_append_comma _ _ (comma_not_mem_Itoa id), ih]
    simp

/-- The ids read off a text written by `CreateVol` are the ids written. -/
theorem blkgrpIds_joinIds (ids : List Int) : blkgrpIds (joinIds ids) = ids := by
  unfold blkgrpIds
  rw [Split_joinIds]
  have hf : (ids.map Itoa ++ [[]]).filter (fun e => decide (e ≠ [])) = ids.map Itoa := by
    rw [List.filter_append]
    have h1 : (ids.map Itoa).filter (fun e => decide (e ≠ [])) = ids.map Itoa := by
      apply List.filter_eq_self.mpr
      intro e he
      obtain ⟨i, _, rfl⟩ := List.mem_map.mp he
      simpa using Itoa_ne_nil i
    rw [h1]
    simp
  rw [hf, List.map_map]
  conv_rhs => rw [← List.map_id ids]
  apply List.map_congr_left
  intro i _
  simp [Atoi_Itoa]

/-! ## One iteration of the allocation loop -/

theorem markBlks_nil (blk : List Blk) : markBlks [] blk = blk := by
  simp [markBlks]

theorem markBlks_markBlks (a b : List Int) (blk : List Blk) :
    markBlks b (markBlks a blk) = markBlks (a ++ b) blk := by
  simp only [markBlks, List.map_map, List.mem_append]
  apply List.map_congr_left
  intro x _
  by_cases ha : x.blkid ∈ a <;> by_cases hb : x.blkid ∈ b <;> simp [ha, hb]

theorem Store.markAll_nil (st : Store) : st.markAll [] = st := by
  cases st
  simp [Store.markAll, markBlks_nil]

theorem Store.markAllocated_eq (st : Store) (id : Int) :
    st.markAllocated id = st.markAll [id] := by
  simp [Store.markAllocated, Store.markAll, markBlks]

theorem Store.markAll_markAll (st : Store) (a b : List Int) :
    (st.markAll a).markAll b = st.markAll (a ++ b) := by
  simp [Store.markAll, markBlks_markBlks]

/-- The row loop marks a prefix of the selected rows; when it runs to the end it
has marked all of them and `blks` has grown by their text. -/
theorem allocRows_spec (f : CreateVolFaults) (i : Nat) :
    ∀ (rows : List Int) (j : Nat) (st : Store) (blks : List Char) (st1 : Store)
      (r : Option (List Char)),
      allocRows f i j rows st blks = (st1, r) →
      ∃ done : List Int, done <+: rows ∧ st1 = st.markAll done ∧
        ∀ blks1, r = some blks1 → done = rows ∧ blks1 = blks ++ joinIds rows := by
  intro rows
  induction rows with
  | nil =>
    intro j st blks st1 r h
    simp only [allocRows, Prod.mk.injEq] at h
    refine ⟨[], List.prefix_refl _, by rw [Store.markAll_nil]; exact h.1.symm, ?_⟩
    intro blks1 hb
    rw [← h.2] at hb
    simp only [Option.some.injEq] at hb
    simp [joinIds, hb]
  | cons id rest ih =>
    intro j st blks st1 r h
    unfold allocRows at h
    split at h
    · simp only [Prod.mk.injEq] at h
      exact ⟨[], List.nil_prefix, by rw [Store.markAll_nil]; exact h.1.symm,
        fun b hb => by rw [← h.2] at hb; cases hb⟩
    split at h
    · simp only [Prod.mk.injEq] at h
      exact ⟨[], List.nil_prefix, by rw [Store.markAll_nil]; exact h.1.symm,
        fun b hb => by rw [← h.2] at hb; cases hb⟩
    split at h
    · simp only [Prod.mk.injEq] at h
      exact ⟨[], List.nil_prefix, by rw [Store.markAll_nil]; exact h.1.symm,
        fun b hb => by rw [← h.2] at hb; cases hb⟩
    obtain ⟨done, hp, hst, hr⟩ := ih _ _ _ _ _ h
    refine ⟨id :: done, ?_, ?_, ?_⟩
    · exact (List.prefix_cons_inj id).mpr hp
    · rw [hst, Store.markAllocated_eq, Store.markAll_markAll]
      rfl
    · intro blks1 hb
      obtain ⟨h1, h2⟩ := hr blks1 hb
      refine ⟨by rw [h1], ?_⟩
      rw [h2]
      simp [joinIds]

/-- A completed iteration: the rows are those of the block query, all are
marked, and the group row holds their text unless its insert failed. -/
theorem allocGroup_some (f : CreateVolFaults) (rd : Rand) (uuid : String) (i : Nat)
    (st st1 : Store) (rows : List Int)
    (h : allocGroup f rd uuid i st = (st1, some rows)) :
    rows = selectBlks rd i st.blk ∧
      st1 = if f.execGrp i then st.markAll rows
            else (st.markAll rows).insertBlkgrp (joinIds rows) uuid := by
  unfold allocGroup at h
  split at h
  · simp at h
  · simp only at h
    split at h
    · simp at h
    · rename_i st2 blks heq
      obtain ⟨done, _, hst, hr⟩ := allocRows_spec f i _ _ _ _ _ _ heq
      obtain ⟨hd, hb⟩ := hr blks rfl
      subst hd
      simp only [List.nil_append] at hb
      split at h
      · simp at h
      · split at h
        · simp only [Prod.mk.injEq, Option.some.injEq] at h
          rename_i hx
          exact ⟨h.2.symm, by rw [if_pos hx, ← h.1, hst, h.2]⟩
        · simp only [Prod.mk.injEq, Option.some.injEq] at h
          rename_i hx
          exact ⟨h.2.symm, by rw [if_neg hx, ← h.1, hst, hb, h.2]⟩

/-- An iteration that gives up leaves the blocks it has marked so far marked. -/
theorem allocGroup_none (f : CreateVolFaults) (rd : Rand) (uuid : String) (i : Nat)
    (st st1 : Store) (h : allocGroup f rd uuid i st = (st1, none)) :
    ∃ done : List Int, done <+: selectBlks rd i st.blk ∧ st1 = st.markAll done := by
  unfold allocGroup at h
  split at h
  · simp only [Prod.mk.injEq] at h
    exact ⟨[], List.nil_prefix, by rw [Store.markAll_nil]; exact h.1.symm⟩
  · simp only at h
    split at h
    · rename_i st2 heq
      obtain ⟨done, hp, hst, _⟩ := allocRows_spec f i _ _ _ _ _ _ heq
      simp only [Prod.mk.injEq] at h
      exact ⟨done, hp, by rw [← h.1, hst]⟩
    · rename_i st2 blks heq
      obtain ⟨done, hp, hst, _⟩ := allocRows_spec f i _ _ _ _ _ _ heq
      split at h
      · simp only [Prod.mk.injEq] at h
        exact ⟨done, hp, by rw [← h.1, hst]⟩
      · split at h <;> simp at h

/-! ## The block query -/

theorem mem_hostips (bs : List Blk) (h : String) :
    h ∈ hostips bs ↔ ∃ b ∈ bs, b.hostip = h := by
  induction bs with
  | nil => simp [hostips]
  | cons b bs ih =>
    simp only [hostips, List.mem_cons, List.mem_filter, ih, decide_eq_true_eq]
    constructor
    · rintro (h1 | ⟨⟨c, hc, hh⟩, _⟩)
      · exact ⟨b, Or.inl rfl, h1.symm⟩
      · exact ⟨c, Or.inr hc, hh⟩
    · rintro ⟨c, hc | hc, hh⟩
      · exact Or.inl (by rw [← hh, hc])
      · by_cases hb : h = b.hostip
        · exact Or.inl hb
        · exact Or.inr ⟨⟨c, hc, hh⟩, hb⟩

theorem nodup_hostips (bs : List Blk) : (hostips bs).Nodup := by
  induction bs with
  | nil => simp [hostips]
  | cons b bs ih =>
    simp only [hostips, List.nodup_cons, List.mem_filter, decide_eq_true_eq]
    exact ⟨fun h => h.2 rfl, ih.filter _⟩

theorem cons_eraseIdx_perm {α : Type} (l : List α) (k : Nat) (h : k < l.length) :
    (l[k] :: l.eraseIdx k).Perm l := by
  have h1 : l = l.take k ++ l[k] :: l.drop (k + 1) := by
    rw [List.getElem_cons_drop, List.take_append_drop]
  rw [List.eraseIdx_eq_take_drop_succ]
  conv_rhs => rw [h1]
  exact List.perm_middle.symm

/-- The random order is a rearrangement of the list. -/
theorem shuffle_perm {α : Type} (draw : Nat → Nat) :
    ∀ (n : Nat) (l : List α), l.length = n → (shuffle draw n l).Perm l := by
  intro n
  induction n with
  | zero =>
    intro l hl
    rw [List.length_eq_zero.mp hl]
    simp [shuffle]
  | succ n ih =>
    intro l hl
    have hk : draw n % l.length < l.length := Nat.mod_lt _ (by omega)
    simp only [shuffle, List.getElem?_eq_getElem hk]
    have hlen : (l.eraseIdx (draw n % l.length)).length = n := by
      rw [List.length_eraseIdx, if_pos hk]
      omega
    exact ((ih _ hlen).cons _).trans (cons_eraseIdx_perm l _ hk)

theorem groupRows_aux (free : List Blk) (pick : String → Nat) :
    ∀ hs : List String, (∀ h ∈ hs, ∃ b ∈ free, b.hostip = h) →
      ((hs.filterMap fun h =>
          (free.filter fun b => b.hostip = h)[pick h %
            (free.filter fun b => b.hostip = h).length]?).map fun b => b.hostip) = hs ∧
      ∀ b ∈ (hs.filterMap fun h =>
          (free.filter fun b => b.hostip = h)[pick h %
            (free.filter fun b => b.hostip = h).length]?), b ∈ free := by
  intro hs
  induction hs with
  | nil => intro _; simp
  | cons h hs ih =>
    intro hall
    obtain ⟨b, hb, hbh⟩ := hall h (by simp)
    have hmem : b ∈ free.filter fun b => b.hostip = h := by
      simp [List.mem_filter, hb, hbh]
    have hpos : 0 < (free.filter fun b => decide (b.hostip = h)).length :=
      List.length_pos_of_mem hmem
    have hk := Nat.mod_lt (pick h) hpos
    obtain ⟨ih1, ih2⟩ := ih (fun h' hh' => hall h' (by simp [hh']))
    have hx := List.getElem_mem hk
    rw [List.mem_filter] at hx
    simp only [List.filterMap_cons, List.getElem?_eq_getElem hk, List.map_cons, ih1]
    refine ⟨by simpa using hx.2, ?_⟩
    intro c hc
    rcases List.mem_cons.mp hc with hc | hc
    · rw [hc]; exact hx.1
    · exact ih2 c hc

theorem groupRows_hostip (rd : Rand) (i : Nat) (blk : List Blk) :
    (groupRows rd i blk).map (fun b => b.hostip) =
      hostips (blk.filter fun b => b.allocated = 0) :=
  (groupRows_aux _ (rd.pick i) _ (fun h hh => (mem_hostips _ h).mp hh)).1

theorem groupRows_mem (rd : Rand) (i : Nat) (blk : List Blk) (b : Blk)
    (hb : b ∈ groupRows rd i blk) : b ∈ blk ∧ b.allocated = 0 := by
  have := (groupRows_aux _ (rd.pick i) _ (fun h hh => (mem_hostips _ h).mp hh)).2 b hb
  simpa [List.mem_filter] using this

/-- The rows returned by the block query are the ids of at most three unallocated
rows with pairwise different `hostip`, three when that many addresses have an
unallocated block. -/
theorem selectBlks_spec (rd : Rand) (i : Nat) (blk : List Blk) :
    ∃ bs : List Blk, selectBlks rd i blk = bs.map (fun b => b.blkid) ∧
      (∀ b ∈ bs, b ∈ blk ∧ b.allocated = 0) ∧
      (bs.map fun b => b.hostip).Nodup ∧
      bs.length = min 3 (hostips (blk.filter fun b => b.allocated = 0)).length := by
  have hsel : selectBlks rd i blk =
      ((shuffle (rd.ord i) (groupRows rd i blk).length (groupRows rd i blk)).take 3).map
        (fun b => b.blkid) := rfl
  have hperm := shuffle_perm (rd.ord i) _ (groupRows rd i blk) rfl
  refine ⟨_, hsel, ?_, ?_, ?_⟩
  · intro b hb
    exact groupRows_mem rd i blk b (hperm.subset ((List.take_sublist _ _).subset hb))
  · have h1 : ((shuffle (rd.ord i) (groupRows rd i blk).length (groupRows rd i blk)).map
        fun b => b.hostip).Nodup := by
      rw [(hperm.map _).nodup_iff, groupRows_hostip]
      exact nodup_hostips _
    exact ((List.take_sublist 3 _).map _).nodup h1
  · rw [List.length_take, hperm.length_eq, ← groupRows_hostip, List.length_map]

/-! ## The allocation loop -/

/-- Whatever the outcome, the loop only marks blocks allocated and appends
`blkgrp` rows of the volume; the blocks of every completed group are marked. -/
theorem allocGroups_frame (f : CreateVolFaults) (rd : Rand) (uuid : String) :
    ∀ (n i : Nat) (st : Store) (sel : List (List Int)) (st1 : Store) (ret : Int)
      (sel1 : List (List Int)),
      allocGroups f rd uuid n i st sel = (st1, ret, sel1) →
      ∃ (done : List Int) (gs : List Blkgrp) (new : List (List Int)),
        st1 = { st with blk := markBlks done st.blk, blkgrp := st.blkgrp ++ gs,
                        nextBlkgrpid := st.nextBlkgrpid + gs.length } ∧
        sel1 = sel ++ new ∧ (∀ g ∈ gs, g.volume_uuid = uuid) ∧
        (∀ id ∈ new.flatten, id ∈ done) ∧ (ret = 0 ∨ ret = 1) := by
  intro n
  induction n with
  | zero =>
    intro i st sel st1 ret sel1 h
    simp only [allocGroups, Prod.mk.injEq] at h
    obtain ⟨h1, h2, h3⟩ := h
    refine ⟨[], [], [], ?_, by simp [h3], by simp, by simp, Or.inl h2.symm⟩
    subst h1
    cases st
    simp [markBlks_nil]
  | succ n ih =>
    intro i st sel st1 ret sel1 h
    unfold allocGroups at h
    split at h
    · rename_i st2 heq
      obtain ⟨done, _, hst⟩ := allocGroup_none f rd uuid i st st2 heq
      simp only [Prod.mk.injEq] at h
      obtain ⟨h1, h2, h3⟩ := h
      refine ⟨done, [], [], ?_, by simp [h3], by simp, by simp, Or.inr h2.symm⟩
      rw [← h1, hst]
      simp [Store.markAll]
    · rename_i st2 rows heq
      obtain ⟨hrows, hst⟩ := allocGroup_some f rd uuid i st st2 rows heq
      obtain ⟨done, gs, new, h1, h2, h3, h4, h5⟩ := ih _ _ _ _ _ _ h
      by_cases hx : f.execGrp i = true
      · rw [if_pos hx] at hst
        refine ⟨rows ++ done, gs, rows :: new, ?_, by simp [h2], h3, ?_, h5⟩
        · rw [h1, hst]
          simp [Store.markAll, markBlks_markBlks]
        · intro x hx1
          simp only [List.flatten_cons, List.mem_append] at hx1 ⊢
          exact hx1.imp (fun h => h) (h4 x)
      · rw [if_neg hx] at hst
        refine ⟨rows ++ done,
          { blkgrpid := st.nextBlkgrpid, blks := joinIds rows, volume_uuid := uuid } :: gs,
          rows :: new, ?_, by simp [h2], ?_, ?_, h5⟩
        · rw [h1, hst]
          simp [Store.markAll, Store.insertBlkgrp, markBlks_markBlks]
          omega
        · intro g hg
          rcases List.mem_cons.mp hg with hg | hg
          · rw [hg]
          · exact h3 g hg
        · intro x hx1
          simp only [List.flatten_cons, List.mem_append] at hx1 ⊢
          exact hx1.imp (fun h => h) (h4 x)

/-- A run of the loop that ends with `ack.Ret = 0` and whose group inserts took
effect: the store afterwards is determined by the selections of the query. -/
theorem allocGroups_ok (f : CreateVolFaults) (rd : Rand) (uuid : String)
    (hx : ∀ k, f.execGrp k = false) :
    ∀ (n i : Nat) (st : Store) (sel : List (List Int)) (st1 : Store)
      (sel1 : List (List Int)),
      allocGroups f rd uuid n i st sel = (st1, 0, sel1) →
      sel1 = sel ++ selections rd n i st.blk ∧
      st1 = { st with
              blk := markBlks (selections rd n i st.blk).flatten st.blk,
              blkgrp := st.blkgrp ++ mkGroups uuid st.nextBlkgrpid (selections rd n i st.blk),
              nextBlkgrpid := st.nextBlkgrpid + n } := by
  intro n
  induction n with
  | zero =>
    intro i st sel st1 sel1 h
    simp only [allocGroups, Prod.mk.injEq] at h
    obtain ⟨h1, _, h3⟩ := h
    subst h1
    refine ⟨by simp [selections, h3], ?_⟩
    cases st
    simp [selections, mkGroups, markBlks_nil]
  | succ n ih =>
    intro i st sel st1 sel1 h
    unfold allocGroups at h
    split at h
    · simp at h
    · rename_i st2 rows heq
      obtain ⟨hrows, hst⟩ := allocGroup_some f rd uuid i st st2 rows heq
      rw [hx i] at hst
      simp only [Bool.false_eq_true, if_false] at hst
      obtain ⟨h1, h2⟩ := ih _ _ _ _ _ h
      have hblk : st2.blk = markBlks rows st.blk := by rw [hst]; rfl
      rw [hblk] at h1 h2
      subst hrows
      refine ⟨by simp [h1, selections], ?_⟩
      rw [h2, hst]
      simp [Store.markAll, Store.insertBlkgrp, selections, mkGroups, markBlks_markBlks]
      omega

theorem allocRows_noFaults (i : Nat) :
    ∀ (rows : List Int) (j : Nat) (s : Store) (b : List Char),
      ∃ s1 b1, allocRows noCreateVolFaults i j rows s b = (s1, some b1) := by
  intro rows
  induction rows with
  | nil => intro j s b; exact ⟨s, b, rfl⟩
  | cons r rows ih =>
    intro j s b
    obtain ⟨s1, b1, h⟩ := ih (j + 1) (s.markAllocated r) (b ++ Itoa r ++ [','])
    exact ⟨s1, b1, by simpa [allocRows, noCreateVolFaults] using h⟩

theorem allocGroup_noFaults (rd : Rand) (uuid : String) (i : Nat) (st : Store) :
    ∃ s1 rows, allocGroup noCreateVolFaults rd uuid i st = (s1, some rows) := by
  obtain ⟨s1, b1, h⟩ := allocRows_noFaults i (selectBlks rd i st.blk) 0 st []
  refine ⟨s1.insertBlkgrp b1 uuid, selectBlks rd i st.blk, ?_⟩
  unfold allocGroup
  dsimp only
  rw [h]
  simp [noCreateVolFaults]

/-- With every store operation succeeding the loop ends with `ack.Ret = 0`. -/
theorem allocGroups_noFaults (rd : Rand) (uuid : String) :
    ∀ (n i : Nat) (st : Store) (sel : List (List Int)),
      (allocGroups noCreateVolFaults rd uuid n i st sel).2.1 = 0 := by
  intro n
  induction n with
  | zero => intro i st sel; rfl
  | succ n ih =>
    intro i st sel
    obtain ⟨s1, rows, h⟩ := allocGroup_noFaults rd uuid i st
    unfold allocGroups
    rw [h]
    exact ih _ _ _

theorem length_selections (rd : Rand) :
    ∀ (n i : Nat) (blk : List Blk), (selections rd n i blk).length = n := by
  intro n
  induction n with
  | zero => intro i blk; rfl
  | succ n ih => intro i blk; simp [selections, ih]

theorem length_mkGroups (uuid : String) :
    ∀ (sel : List (List Int)) (first : Int), (mkGroups uuid first sel).length = sel.length := by
  intro sel
  induction sel with
  | nil => intro first; rfl
  | cons rows rest ih => intro first; simp [mkGroups, ih]

theorem uuid_mkGroups (uuid : String) :
    ∀ (sel : List (List Int)) (first : Int), ∀ g ∈ mkGroups uuid first sel,
      g.volume_uuid = uuid := by
  intro sel
  induction sel with
  | nil => intro first g hg; simp [mkGroups] at hg
  | cons rows rest ih =>
    intro first g hg
    simp only [mkGroups, List.mem_cons] at hg
    rcases hg with hg | hg
    · rw [hg]
    · exact ih _ g hg

theorem blks_mkGroups (uuid : String) :
    ∀ (sel : List (List Int)) (first : Int),
      (mkGroups uuid first sel).map (fun g => g.blks) = sel.map joinIds := by
  intro sel
  induction sel with
  | nil => intro first; rfl
  | cons rows rest ih => intro first; simp [mkGroups, ih]

/-! ## CreateVol as a whole -/

/-- A call that returns `ack.Ret = 0` and whose group inserts took effect: what
it returns and the store it leaves. -/
theorem CreateVol_ok (f : CreateVolFaults) (rd : Rand) (uuid : String) (st : Store)
    (name : String) (size : Int) (hx : ∀ k, f.execGrp k = false)
    (h : (CreateVol f rd uuid st name size).2.1.Ret = 0) :
    CreateVol f rd uuid st name size =
      ({ st with
          volumes := if f.execVol then st.volumes
                     else st.volumes ++ [{ uuid := uuid, name := name, size := size }]
          blk := markBlks (selections rd (blkgrpnum size).toNat 0 st.blk).flatten st.blk
          blkgrp := st.blkgrp ++
            mkGroups uuid st.nextBlkgrpid (selections rd (blkgrpnum size).toNat 0 st.blk)
          nextBlkgrpid := st.nextBlkgrpid + (blkgrpnum size).toNat },
       { Ret := 0, UUID := uuid },
       selections rd (blkgrpnum size).toNat 0 st.blk) := by
  unfold CreateVol at h ⊢
  by_cases hp : f.prepareVol = true
  · rw [if_pos hp] at h
    simp at h
  · rw [if_neg hp] at h ⊢
    dsimp only at h ⊢
    generalize hg : allocGroups f rd uuid (blkgrpnum size).toNat 0
      (if f.execVol = true then st else st.insertVolume uuid name size) [] = res at h ⊢
    obtain ⟨st2, ret, sel⟩ := res
    simp only at h
    subst h
    obtain ⟨h1, h2⟩ := allocGroups_ok f rd uuid hx _ _ _ _ _ _ hg
    rw [h1, h2]
    by_cases hv : f.execVol = true <;> simp [hv, Store.insertVolume]

/-- With every store operation succeeding `CreateVol` returns `ack.Ret = 0`. -/
theorem CreateVol_noFaults (rd : Rand) (uuid : String) (st : Store) (name : String)
    (size : Int) : (CreateVol noCreateVolFaults rd uuid st name size).2.1.Ret = 0 := by
  unfold CreateVol
  rw [if_neg (by simp [noCreateVolFaults])]
  exact allocGroups_noFaults rd uuid _ _ _ _

/-! ## Claims: group count -/

/-- C10 (group count). For a quota `0 < quota ≤ 2^31 - 1` the iteration count
`blkgrpnum` of `CreateVol` is `(quota + blksize - 1) / blksize` in exact integer
arithmetic, the `int32` sum `volsize/blksize + 1` does not overflow, a call whose
store operations all succeed returns status 0, and every call that returns
status 0 with its group inserts taking effect has run that many iterations and
appended exactly that many `blkgrp` rows, all of the new volume. -/
theorem C10_group_count (quota : Int) (hq : 0 < quota) (hmax : quota ≤ 2147483647) :
    blkgrpnum quota = (quota + blksize - 1) / blksize ∧
    Int.tdiv quota blksize + 1 ≤ 2147483647 ∧
    (∀ (rd : Rand) (uuid : String) (st : Store) (name : String),
      (CreateVol noCreateVolFaults rd uuid st name quota).2.1.Ret = 0) ∧
    ∀ (f : CreateVolFaults) (rd : Rand) (uuid : String) (st : Store) (name : String),
      (∀ k, f.execGrp k = false) →
      (CreateVol f rd uuid st name quota).2.1.Ret = 0 →
      ((CreateVol f rd uuid st name quota).2.2.length : Int) =
        (quota + blksize - 1) / blksize ∧
      ∃ gs : List Blkgrp,
        (CreateVol f rd uuid st name quota).1.blkgrp = st.blkgrp ++ gs ∧
        (gs.length : Int) = (quota + blksize - 1) / blksize ∧
        ∀ g ∈ gs, g.volume_uuid = uuid := by
  have h1 : Int.tdiv quota 10 = quota / 10 := Int.tdiv_eq_ediv (by omega) (by omega)
  have h3 : Int.tmod quota 10 = quota % 10 := Int.tmod_eq_emod (by omega) (by omega)
  have hnum : blkgrpnum quota = (quota + blksize - 1) / blksize := by
    simp only [blkgrpnum, blksize, toInt32, h1, h3]
    split_ifs <;> omega
  have hpos : 0 ≤ (quota + blksize - 1) / blksize := by
    simp only [blksize]; omega
  refine ⟨hnum, by simp only [blksize, h1]; omega,
    fun rd uuid st name => CreateVol_noFaults rd uuid st name quota, ?_⟩
  intro f rd uuid st name hx hret
  rw [CreateVol_ok f rd uuid st name quota hx hret]
  refine ⟨?_, _, rfl, ?_, uuid_mkGroups uuid _ _⟩
  · simp only [length_selections, hnum]
    exact Int.toNat_of_nonneg hpos
  · simp only [length_mkGroups, length_selections, hnum]
    exact Int.toNat_of_nonneg hpos

/-- Witness for C10 at quota 25: three iterations. -/
theorem C10_group_count_witness : blkgrpnum 25 = 3 :=
  (C10_group_count 25 (by decide) (by decide)).1.trans (by decide)

/-! ## GetVolInfo with every lookup succeeding -/

theorem scanVols_noFaults (uuid : String) :
    ∀ (vs : List Volume) (j : Nat) (acc : String × String × Int),
      (∀ v ∈ vs, inInt32 v.size = true) →
      scanVols noGetVolInfoFaults uuid j vs acc =
        some (match vs.getLast? with
              | none => acc
              | some v => (uuid, v.name, v.size)) := by
  intro vs
  induction vs with
  | nil => intro j acc _; rfl
  | cons v vs ih =>
    intro j acc hall
    have h1 : noGetVolInfoFaults.scanVol j = false := rfl
    have h2 : inInt32 v.size = true := hall v (by simp)
    simp only [scanVols, h1, h2, Bool.not_true, Bool.or_self, Bool.false_eq_true, if_false]
    rw [ih (j + 1) (uuid, v.name, v.size) (fun w hw => hall w (by simp [hw]))]
    cases vs with
    | nil => rfl
    | cons w ws =>
      rw [List.getLast?_cons_cons, List.getLast?_eq_getLast (w :: ws) (by simp)]

theorem scanBlkRows_noFaults (aton : String → Int) (g e : Nat) (blkid : Int) :
    ∀ (bs : List Blk) (k : Nat) (acc : List BlockInfo),
      scanBlkRows noGetVolInfoFaults aton g e blkid k bs acc =
        some (acc ++ bs.map (blockInfoOf aton blkid)) := by
  intro bs
  induction bs with
  | nil => intro k acc; simp [scanBlkRows]
  | cons b bs ih =>
    intro k acc
    have := ih (k + 1) (acc ++ [blockInfoOf aton blkid b])
    simp only [noGetVolInfoFaults] at this
    simp only [scanBlkRows, noGetVolInfoFaults, Bool.false_eq_true, if_false]
    simpa [blockInfoOf] using this

theorem resolveEles_noFaults (aton : String → Int) (st : Store) (g : Nat) :
    ∀ (eles : List (List Char)) (e : Nat) (acc : List BlockInfo),
      resolveEles noGetVolInfoFaults aton st g e eles acc =
        some (acc ++ eles.flatMap (eleInfos aton st)) := by
  intro eles
  induction eles with
  | nil => intro e acc; simp [resolveEles]
  | cons ele rest ih =>
    intro e acc
    unfold resolveEles
    by_cases hc : ele = [',']
    · rw [if_pos hc, ih]
      simp [eleInfos, hc]
    · rw [if_neg hc]
      have h1 : noGetVolInfoFaults.queryBlk g e = false := rfl
      simp only [h1, Bool.false_eq_true, if_false, scanBlkRows_noFaults, ih]
      simp [eleInfos, hc]

theorem resolveGrps_noFaults (aton : String → Int) (st : Store) :
    ∀ (rs : List Blkgrp) (g : Nat) (acc : List BlockGroup),
      resolveGrps noGetVolInfoFaults aton st g rs acc =
        some (acc ++ rs.map (groupOf aton st)) := by
  intro rs
  induction rs with
  | nil => intro g acc; simp [resolveGrps]
  | cons r rs ih =>
    intro g acc
    unfold resolveGrps
    have h1 : noGetVolInfoFaults.scanGrp g = false := rfl
    simp only [h1, Bool.false_eq_true, if_false, resolveEles_noFaults, ih]
    simp [groupOf]

/-- With every lookup succeeding (the stored sizes of the volume fit `int32`)
`GetVolInfo` returns status 0; id, name and quota come from the last `volumes`
row of the UUID, if there is one. -/
theorem GetVolInfo_noFaults (aton : String → Int) (st : Store) (uuid : String)
    (hsize : ∀ v ∈ st.volumes, v.uuid = uuid → inInt32 v.size = true) :
    GetVolInfo noGetVolInfoFaults aton st uuid =
      { Ret := 0,
        VolInfo := some
          { VolID := (match (st.volumes.filter fun v => v.uuid = uuid).getLast? with
                      | none => ""
                      | some _ => uuid)
            VolName := (match (st.volumes.filter fun v => v.uuid = uuid).getLast? with
                        | none => ""
                        | some v => v.name)
            SpaceQuota := (match (st.volumes.filter fun v => v.uuid = uuid).getLast? with
                           | none => 0
                           | some v => v.size)
            BlockGroups := (st.blkgrp.filter fun r => r.volume_uuid = uuid).map
              (groupOf aton st) } } := by
  unfold GetVolInfo
  have h1 : noGetVolInfoFaults.queryVol = false := rfl
  have h2 : noGetVolInfoFaults.queryGrp = false := rfl
  have h3 : ∀ v ∈ st.volumes.filter (fun v => decide (v.uuid = uuid)), inInt32 v.size = true := by
    intro v hv
    rw [List.mem_filter] at hv
    exact hsize v hv.1 (by simpa using hv.2)
  simp only [h1, h2, Bool.false_eq_true, if_false, scanVols_noFaults uuid _ 0 _ h3,
    resolveGrps_noFaults, List.nil_append]
  cases (st.volumes.filter fun v => v.uuid = uuid).getLast? <;> rfl

/-! ## Claims: unknown volumes, small capacities, faulty hosts -/

/-- C8, counterexample: on the empty store, which has no `volumes` row at all,
`GetVolInfo` answers a lookup of an unknown UUID with status 0 and a topology. -/
theorem C8_unknown_volume_status_zero :
    emptyStore.volumes = [] ∧
    GetVolInfo noGetVolInfoFaults atonLength emptyStore "no-such-volume" =
      { Ret := 0,
        VolInfo := some { VolID := "", VolName := "", SpaceQuota := 0, BlockGroups := [] } } := by
  decide

/-- C8, amended: `GetVolInfo` has no not-found status. For every store and every
UUID that has no row in `volumes`, `GetVolInfo` (its store lookups succeeding)
returns status 0 with a topology: empty volume id and name, quota 0, and the
groups of whatever `blkgrp` rows carry the UUID. -/
theorem C8_getVolInfo_without_not_found (aton : String → Int) (st : Store) (uuid : String)
    (h : ∀ v ∈ st.volumes, v.uuid ≠ uuid) :
    GetVolInfo noGetVolInfoFaults aton st uuid =
      { Ret := 0,
        VolInfo := some { VolID := "", VolName := "", SpaceQuota := 0,
                          BlockGroups := (st.blkgrp.filter fun r => r.volume_uuid = uuid).map
                            (groupOf aton st) } } := by
  rw [GetVolInfo_noFaults aton st uuid (fun v hv hu => absurd hu (h v hv))]
  have hnil : (st.volumes.filter fun v => v.uuid = uuid) = [] := by
    rw [List.filter_eq_nil_iff]
    intro v hv
    simpa using h v hv
  rw [hnil]
  rfl

/-- Witness for C8 (amended): the store holds the volume `uuid-1`, the lookup
asks for `uuid-2`. -/
theorem C8_getVolInfo_without_not_found_witness :
    (CreateVol noCreateVolFaults zeroRand "uuid-1" threeHosts "vol" 10).1.volumes =
      [{ uuid := "uuid-1", name := "vol", size := 10 }] ∧
    GetVolInfo noGetVolInfoFaults atonLength
        (CreateVol noCreateVolFaults zeroRand "uuid-1" threeHosts "vol" 10).1 "uuid-2" =
      { Ret := 0,
        VolInfo := some { VolID := "", VolName := "", SpaceQuota := 0, BlockGroups := [] } } :=
  ⟨by decide,
   (C8_getVolInfo_without_not_found atonLength
    (CreateVol noCreateVolFaults zeroRand "uuid-1" threeHosts "vol" 10).1 "uuid-2"
    (by decide)).trans (by decide)⟩

/-- C7, failing input: registering a datanode of capacity 5 (or 0) on the empty
store inserts the disk row and no block, the `blkid` query returns no row, and
`blkids[0]` is out of range: the handler panics instead of acknowledging. -/
theorem C7_registry_small_capacity_panics :
    DatanodeRegistry noRegistryFaults emptyStore "10.0.0.1" 8000 "/data" 5 =
      ({ emptyStore with
          disks := [{ ip := "10.0.0.1", port := 8000, mount := "/data", total := 5,
                      used := 0, free := 0, statu := 0 }] }, none) ∧
    (DatanodeRegistry noRegistryFaults emptyStore "10.0.0.1" 8000 "/data" 0).2 = none := by
  decide

/-- C4, failing input: after the fault heartbeat of `10.0.0.1:8000` its block 1
has `disabled = 1`, and the next `CreateVol` selects block 1, marks it allocated
and writes it into the `blkgrp` row. -/
theorem C4_disabled_block_is_allocated :
    faultyHost.blk =
      [{ blkid := 1, hostip := "10.0.0.1", hostport := 8000, allocated := 0, disabled := 1 },
       { blkid := 2, hostip := "10.0.0.2", hostport := 8000, allocated := 0, disabled := 0 },
       { blkid := 3, hostip := "10.0.0.3", hostport := 8000, allocated := 0, disabled := 0 }] ∧
    (CreateVol noCreateVolFaults zeroRand "uuid-1" faultyHost "vol" 10).2 =
      ({ Ret := 0, UUID := "uuid-1" }, [[1, 2, 3]]) ∧
    (CreateVol noCreateVolFaults zeroRand "uuid-1" faultyHost "vol" 10).1.blk =
      [{ blkid := 1, hostip := "10.0.0.1", hostport := 8000, allocated := 1, disabled := 1 },
       { blkid := 2, hostip := "10.0.0.2", hostport := 8000, allocated := 1, disabled := 0 },
       { blkid := 3, hostip := "10.0.0.3", hostport := 8000, allocated := 1, disabled := 0 }] ∧
    (CreateVol noCreateVolFaults zeroRand "uuid-1" faultyHost "vol" 10).1.groupedIds =
      [1, 2, 3] := by
  decide

/-! ## Claims: failure of CreateVol -/

/-- C1, counterexample: on `threeHosts` the second block update fails. `CreateVol`
returns status 1, and the store afterwards is not the store before: the volume
row is there and block 1, unallocated before, is allocated. -/
theorem C1_failed_createVol_changes_store :
    (CreateVol secondUpdateFails zeroRand "uuid-1" threeHosts "vol" 10).2.1.Ret = 1 ∧
    (CreateVol secondUpdateFails zeroRand "uuid-1" threeHosts "vol" 10).1 ≠ threeHosts ∧
    threeHosts.volumes = [] ∧
    (CreateVol secondUpdateFails zeroRand "uuid-1" threeHosts "vol" 10).1.volumes =
      [{ uuid := "uuid-1", name := "vol", size := 10 }] ∧
    threeHosts.blk =
      [{ blkid := 1, hostip := "10.0.0.1", hostport := 8000, allocated := 0, disabled := 0 },
       { blkid := 2, hostip := "10.0.0.2", hostport := 8000, allocated := 0, disabled := 0 },
       { blkid := 3, hostip := "10.0.0.3", hostport := 8000, allocated := 0, disabled := 0 }] ∧
    (CreateVol secondUpdateFails zeroRand "uuid-1" threeHosts "vol" 10).1.blk =
      [{ blkid := 1, hostip := "10.0.0.1", hostport := 8000, allocated := 1, disabled := 0 },
       { blkid := 2, hostip := "10.0.0.2", hostport := 8000, allocated := 0, disabled := 0 },
       { blkid := 3, hostip := "10.0.0.3", hostport := 8000, allocated := 0, disabled := 0 }] := by
  decide

/-- The row loop, exactly: it marks the rows up to the first failing step, and
runs to the end when no step fails. -/
theorem allocRows_exact (f : CreateVolFaults) (i : Nat) :
    ∀ (rows : List Int) (j : Nat) (st : Store) (blks : List Char),
      allocRows f i j rows st blks =
        (st.markAll (doneRows f i j rows),
         if (doneRows f i j rows).length = rows.length then some (blks ++ joinIds rows)
         else none) := by
  intro rows
  induction rows with
  | nil =>
    intro j st blks
    simp [allocRows, doneRows, Store.markAll_nil, joinIds]
  | cons id rest ih =>
    intro j st blks
    unfold allocRows doneRows
    by_cases h1 : f.scan i j = true
    · simp [h1, Store.markAll_nil]
    by_cases h2 : f.prepareBlk i j = true
    · simp [h1, h2, Store.markAll_nil]
    by_cases h3 : f.execBlk i j = true
    · simp [h1, h2, h3, Store.markAll_nil]
    simp only [h1, h2, h3, Bool.false_eq_true, if_false, Bool.or_self, ih,
      Store.markAllocated_eq, Store.markAll_markAll, List.singleton_append, List.length_cons,
      Nat.add_right_cancel_iff]
    congr 1
    split
    · simp [joinIds]
    · rfl

/-- An iteration that gives up, exactly. -/
theorem allocGroup_failed (f : CreateVolFaults) (rd : Rand) (uuid : String) (i : Nat)
    (st st1 : Store) (h : allocGroup f rd uuid i st = (st1, none)) :
    st1 = st.markAll (failedMarks f rd i st.blk) := by
  unfold allocGroup at h
  unfold failedMarks
  by_cases hq : f.query i = true
  · rw [if_pos hq] at h ⊢
    simp only [Prod.mk.injEq, and_true] at h
    rw [Store.markAll_nil, h]
  · rw [if_neg hq] at h ⊢
    dsimp only at h
    rw [allocRows_exact] at h
    split at h
    · rename_i st2 heq
      simp only [Prod.mk.injEq] at heq h
      rw [← h.1, ← heq.1]
    · rename_i st2 blks heq
      simp only [Prod.mk.injEq] at heq
      split at h
      · simp only [Prod.mk.injEq, and_true] at h
        rw [← h, ← heq.1]
      · split at h <;> simp at h

/-- The allocation loop does not answer anything but 0 and 1. -/
theorem allocGroups_ret (f : CreateVolFaults) (rd : Rand) (uuid : String) :
    ∀ (n i : Nat) (st : Store) (sel : List (List Int)),
      (allocGroups f rd uuid n i st sel).2.1 = 0 ∨ (allocGroups f rd uuid n i st sel).2.1 = 1 := by
  intro n i st sel
  cases hr : allocGroups f rd uuid n i st sel with
  | mk st1 r =>
    obtain ⟨ret, sel1⟩ := r
    obtain ⟨_, _, _, _, _, _, _, h5⟩ := allocGroups_frame f rd uuid n i st sel st1 ret sel1 hr
    exact h5

/-- A run of the loop that ends with `ack.Ret = 1`, exactly: `k` iterations were
completed, iteration `i + k` gave up, and the store holds all writes made until
then. -/
theorem allocGroups_failed (f : CreateVolFaults) (rd : Rand) (uuid : String) :
    ∀ (n i : Nat) (st : Store) (sel : List (List Int)) (st1 : Store)
      (sel1 : List (List Int)),
      allocGroups f rd uuid n i st sel = (st1, 1, sel1) →
      ∃ k : Nat, k < n ∧ sel1 = sel ++ selections rd k i st.blk ∧
        st1 = { st with
                blk := markBlks ((selections rd k i st.blk).flatten ++
                  failedMarks f rd (i + k) (markBlks (selections rd k i st.blk).flatten st.blk))
                  st.blk
                blkgrp := st.blkgrp ++
                  keptGroups f uuid st.nextBlkgrpid i (selections rd k i st.blk)
                nextBlkgrpid := st.nextBlkgrpid +
                  (keptGroups f uuid st.nextBlkgrpid i (selections rd k i st.blk)).length } := by
  intro n
  induction n with
  | zero =>
    intro i st sel st1 sel1 h
    simp [allocGroups] at h
  | succ n ih =>
    intro i st sel st1 sel1 h
    unfold allocGroups at h
    split at h
    · rename_i st2 heq
      simp only [Prod.mk.injEq, true_and] at h
      have hst := allocGroup_failed f rd uuid i st st2 heq
      refine ⟨0, by omega, by simp [selections, h.2], ?_⟩
      rw [← h.1, hst]
      simp [selections, keptGroups, Store.markAll, markBlks_nil]
    · rename_i st2 rows heq
      obtain ⟨hrows, hst⟩ := allocGroup_some f rd uuid i st st2 rows heq
      obtain ⟨k, hk, h1, h2⟩ := ih _ _ _ _ _ h
      have hblk : st2.blk = markBlks rows st.blk := by
        rw [hst]; split <;> rfl
      rw [hblk] at h1 h2
      have hik : i + (k + 1) = i + 1 + k := by omega
      subst hrows
      refine ⟨k + 1, by omega, by simp [h1, selections], ?_⟩
      rw [h2, hst]
      by_cases hx : f.execGrp i = true
      · simp [hx, Store.markAll, selections, keptGroups, markBlks_markBlks, hik]
      · simp [hx, Store.markAll, Store.insertBlkgrp, selections, keptGroups, markBlks_markBlks,
          hik]
        omega

/-- C1, amended: `CreateVol` undoes nothing. For every store and every call that
returns a non-zero status, the status is 1 and no UUID is returned. If the
failure is the preparation of the volume insert, the store is unchanged.
Otherwise some number `k` of groups, less than the group count, was completed
before the failure, the call selected for them what `k` successive block queries
select, and the store afterwards is exactly the store before with: the `volumes`
row of the generated UUID appended (unless its insert failed), `allocated = 1` on
the blocks selected for the `k` completed groups and on the blocks the failing
iteration updated before its failing step, and one `blkgrp` row of the generated
UUID appended for every completed group whose insert took effect, holding the
text of its ids. -/
theorem C1_failure_keeps_writes (f : CreateVolFaults) (rd : Rand) (uuid : String)
    (st : Store) (name : String) (size : Int)
    (hret : (CreateVol f rd uuid st name size).2.1.Ret ≠ 0) :
    (CreateVol f rd uuid st name size).2.1 = { Ret := 1, UUID := "" } ∧
    (f.prepareVol = true → (CreateVol f rd uuid st name size).1 = st) ∧
    (f.prepareVol = false →
      ∃ k : Nat, k < (blkgrpnum size).toNat ∧
        (CreateVol f rd uuid st name size).2.2 = selections rd k 0 st.blk ∧
        (CreateVol f rd uuid st name size).1 =
          { st with
            volumes := if f.execVol then st.volumes
                       else st.volumes ++ [{ uuid := uuid, name := name, size := size }]
            blk := markBlks ((selections rd k 0 st.blk).flatten ++
              failedMarks f rd k (markBlks (selections rd k 0 st.blk).flatten st.blk)) st.blk
            blkgrp := st.blkgrp ++
              keptGroups f uuid st.nextBlkgrpid 0 (selections rd k 0 st.blk)
            nextBlkgrpid := st.nextBlkgrpid +
              (keptGroups f uuid st.nextBlkgrpid 0 (selections rd k 0 st.blk)).length }) := by
  unfold CreateVol at hret ⊢
  by_cases hp : f.prepareVol = true
  · simp [hp]
  · rw [if_neg hp] at hret ⊢
    dsimp only at hret ⊢
    have hr := allocGroups_ret f rd uuid (blkgrpnum size).toNat 0
      (if f.execVol = true then st else st.insertVolume uuid name size) []
    generalize hg : allocGroups f rd uuid (blkgrpnum size).toNat 0
      (if f.execVol = true then st else st.insertVolume uuid name size) [] = res at hret hr ⊢
    obtain ⟨st2, ret, sel⟩ := res
    simp only at hret hr
    have hret1 : ret = 1 := hr.resolve_left hret
    subst hret1
    obtain ⟨k, hk, h1, h2⟩ := allocGroups_failed f rd uuid _ _ _ _ _ _ hg
    have hblk : (if f.execVol = true then st else st.insertVolume uuid name size).blk =
        st.blk := by split <;> rfl
    rw [hblk] at h1 h2
    refine ⟨by simp, fun h => absurd h hp, fun _ => ⟨k, hk, by simpa using h1, ?_⟩⟩
    simp only [h2]
    by_cases hv : f.execVol = true <;> simp [hv, Store.insertVolume]

/-- Witness for C1 (amended) at the call of the counterexample: no group was
completed, the failing iteration had updated block 1. -/
theorem C1_failure_keeps_writes_witness :
    (CreateVol secondUpdateFails zeroRand "uuid-1" threeHosts "vol" 10).2.1 =
      { Ret := 1, UUID := "" } ∧
    failedMarks secondUpdateFails zeroRand 0 threeHosts.blk = [1] :=
  ⟨(C1_failure_keeps_writes secondUpdateFails zeroRand "uuid-1" threeHosts "vol" 10
    (by decide)).1, by decide⟩

/-! ## Claims: the result of DatanodeRegistry -/

theorem newBlks_succ (first : Int) (ip : String) (port : Int) (n : Nat) :
    newBlks first ip port (n + 1) =
      { blkid := first, hostip := ip, hostport := port, allocated := 0, disabled := 0 } ::
        newBlks (first + 1) ip port n := by
  simp only [newBlks, List.range_succ_eq_map, List.map_cons, List.map_map, Nat.cast_zero,
    add_zero, List.cons.injEq, true_and]
  apply List.map_congr_left
  intro k _
  simp only [Function.comp, Nat.cast_succ]
  congr 1
  omega

theorem insertBlks_noFaults (ip : String) (port : Int) :
    ∀ (n i : Nat) (st : Store),
      insertBlks noRegistryFaults ip port n i st =
        { st with blk := st.blk ++ newBlks st.nextBlkid ip port n,
                  nextBlkid := st.nextBlkid + n } := by
  intro n
  induction n with
  | zero => intro i st; cases st; simp [insertBlks, newBlks]
  | succ n ih =>
    intro i st
    have h1 : noRegistryFaults.execBlk i = false := rfl
    simp only [insertBlks, h1, Bool.false_eq_true, if_false, ih]
    simp only [Store.insertBlk, newBlks_succ, List.append_assoc, List.singleton_append,
      Nat.cast_succ]
    congr 1
    omega

theorem scanBlkids_noFaults :
    ∀ (rows : List Int) (j : Nat) (blkid : Int) (acc : List Int),
      scanBlkids noRegistryFaults j rows blkid acc = acc ++ rows := by
  intro rows
  induction rows with
  | nil => intro j blkid acc; simp [scanBlkids]
  | cons r rows ih =>
    intro j blkid acc
    have := ih (j + 1) r (acc ++ [r])
    simp only [noRegistryFaults] at this
    simp only [scanBlkids, noRegistryFaults, Bool.false_eq_true, if_false]
    simpa using this

theorem sorted_le_getLast :
    ∀ (l : List Int), l.Sorted (· ≤ ·) → ∀ z, l.getLast? = some z → ∀ x ∈ l, x ≤ z := by
  intro l
  induction l with
  | nil => intro _ z hz; simp at hz
  | cons a t ih =>
    intro hs z hz x hx
    cases t with
    | nil =>
      simp only [List.getLast?_singleton, Option.some.injEq] at hz
      simp only [List.mem_singleton] at hx
      omega
    | cons b t =>
      rw [List.getLast?_cons_cons] at hz
      have hzm : z ∈ b :: t := List.mem_of_getLast?_eq_some hz
      rcases List.mem_cons.mp hx with hx | hx
      · rw [hx]; exact List.rel_of_sorted_cons hs z hzm
      · exact ih hs.of_cons z hz x hx

/-- With every store operation succeeding, a registration that finds or creates
at least one block of the datanode acknowledges with the smallest and the largest
id among all blocks of the datanode. -/
theorem DatanodeRegistry_noFaults (st : Store) (ip : String) (port : Int) (mount : String)
    (capacity : Int) :
    (DatanodeRegistry noRegistryFaults st ip port mount capacity).1 =
      { st with
        disks := st.disks ++ [{ ip := ip, port := port, mount := mount, total := capacity,
                                used := 0, free := 0, statu := 0 }]
        blk := st.blk ++ newBlks st.nextBlkid ip port (Int.tdiv capacity blksize).toNat
        nextBlkid := st.nextBlkid + (Int.tdiv capacity blksize).toNat } ∧
    ((DatanodeRegistry noRegistryFaults st ip port mount capacity).1.hostBlkids ip port ≠ [] →
      ∃ first last : Int,
        (DatanodeRegistry noRegistryFaults st ip port mount capacity).2 =
          some { Ret := 0, StartBlockID := toInt32 first, EndBlockID := toInt32 last } ∧
        first ∈ (DatanodeRegistry noRegistryFaults st ip port mount capacity).1.hostBlkids
          ip port ∧
        last ∈ (DatanodeRegistry noRegistryFaults st ip port mount capacity).1.hostBlkids
          ip port ∧
        ∀ x ∈ (DatanodeRegistry noRegistryFaults st ip port mount capacity).1.hostBlkids
          ip port, first ≤ x ∧ x ≤ last) := by
  have h1 : noRegistryFaults.prepareDisk = false := rfl
  have h2 : noRegistryFaults.execDisk = false := rfl
  have h3 : noRegistryFaults.prepareBlk = false := rfl
  have h4 : noRegistryFaults.query = false := rfl
  unfold DatanodeRegistry
  simp only [h1, h2, h3, h4, Bool.false_eq_true, if_false, insertBlks_noFaults,
    scanBlkids_noFaults, List.nil_append]
  generalize hrows : (List.map (fun b => b.blkid)
    (List.filter (fun b => decide (b.hostip = ip ∧ b.hostport = port))
      ({ (st.insertDisk ip port mount capacity) with
          blk := (st.insertDisk ip port mount capacity).blk ++
            newBlks (st.insertDisk ip port mount capacity).nextBlkid ip port
              (Int.tdiv capacity blksize).toNat,
          nextBlkid := (st.insertDisk ip port mount capacity).nextBlkid +
            (Int.tdiv capacity blksize).toNat } : Store).blk)) = rows
  have hperm : (rows.insertionSort (· ≤ ·)).Perm rows := List.perm_insertionSort _ _
  have hsort : (rows.insertionSort (· ≤ ·)).Sorted (· ≤ ·) := List.sorted_insertionSort _ _
  cases hl : rows.insertionSort (· ≤ ·) with
  | nil =>
    have : rows = [] := by
      rw [hl] at hperm
      exact List.Perm.nil_eq hperm |>.symm ▸ rfl
    subst this
    refine ⟨by simp [Store.insertDisk], ?_⟩
    intro hne
    exfalso
    apply hne
    simpa [Store.hostBlkids] using hrows
  | cons a t =>
    rw [hl] at hperm hsort
    have hlast : ∃ z, (a :: t).getLast? = some z :=
      ⟨(a :: t).getLast (by simp), List.getLast?_eq_getLast _ _⟩
    obtain ⟨z, hz⟩ := hlast
    simp only [List.head?_cons, hz]
    refine ⟨by simp [Store.insertDisk], ?_⟩
    intro _
    have hids : ({ st with
        disks := st.disks ++ [{ ip := ip, port := port, mount := mount, total := capacity,
                                used := 0, free := 0, statu := 0 }]
        blk := st.blk ++ newBlks st.nextBlkid ip port (Int.tdiv capacity blksize).toNat
        nextBlkid := st.nextBlkid + (Int.tdiv capacity blksize).toNat } : Store).hostBlkids
          ip port = rows := by
      rw [← hrows]
      simp [Store.hostBlkids, Store.insertDisk]
    simp only [Store.insertDisk] at hids ⊢
    rw [hids]
    refine ⟨a, z, rfl, hperm.subset (by simp), hperm.subset (List.mem_of_getLast?_eq_some hz), ?_⟩
    intro x hx
    have hx1 : x ∈ a :: t := hperm.symm.subset hx
    refine ⟨?_, sorted_le_getLast _ hsort z hz x hx1⟩
    rcases List.mem_cons.mp hx1 with hx2 | hx2
    · omega
    · exact List.rel_of_sorted_cons hsort x hx2

theorem newBlks_spec (first : Int) (ip : String) (port : Int) (n : Nat) :
    (newBlks first ip port n).length = n ∧
    (∀ b ∈ newBlks first ip port n,
      b.hostip = ip ∧ b.hostport = port ∧ b.allocated = 0 ∧ b.disabled = 0) ∧
    (newBlks first ip port n).map (fun b => b.blkid) =
      (List.range n).map fun (k : Nat) => first + (k : Int) := by
  refine ⟨by simp [newBlks], ?_, by simp [newBlks, Function.comp]⟩
  intro b hb
  simp only [newBlks, List.mem_map] at hb
  obtain ⟨k, _, rfl⟩ := hb
  simp

theorem hostBlkids_append_newBlks (st : Store) (ip : String) (port : Int) (n : Nat)
    (blk : List Blk) (h : blk = st.blk ++ newBlks st.nextBlkid ip port n) :
    (blk.filter fun b => b.hostip = ip ∧ b.hostport = port).map (fun b => b.blkid) =
      st.hostBlkids ip port ++ (List.range n).map fun (k : Nat) => st.nextBlkid + (k : Int) := by
  subst h
  have hall : (newBlks st.nextBlkid ip port n).filter
      (fun b => decide (b.hostip = ip ∧ b.hostport = port)) = newBlks st.nextBlkid ip port n := by
    apply List.filter_eq_self.mpr
    intro b hb
    have := (newBlks_spec st.nextBlkid ip port n).2.1 b hb
    simp [this.1, this.2.1]
  rw [List.filter_append, List.map_append, hall, (newBlks_spec st.nextBlkid ip port n).2.2]
  rfl

/-- C6, counterexample: datanode `10.0.0.1:8000` already owns blocks 1 and 2 and
block 3 belongs to another datanode. Registering `10.0.0.1:8000` again with
capacity 20 inserts blocks 4 and 5, yet the acknowledgement is the range 1..5:
`StartBlockID` is not the smallest id just inserted and
`EndBlockID - StartBlockID + 1` is 5, not `20 / 10`. -/
theorem C6_reregistration_range :
    (DatanodeRegistry noRegistryFaults twoRegistered "10.0.0.1" 8000 "/data" 20).1.blk =
      twoRegistered.blk ++
        [{ blkid := 4, hostip := "10.0.0.1", hostport := 8000, allocated := 0, disabled := 0 },
         { blkid := 5, hostip := "10.0.0.1", hostport := 8000, allocated := 0, disabled := 0 }] ∧
    (DatanodeRegistry noRegistryFaults twoRegistered "10.0.0.1" 8000 "/data" 20).2 =
      some { Ret := 0, StartBlockID := 1, EndBlockID := 5 } ∧
    (5 : Int) - 1 + 1 ≠ 20 / blksize := by
  decide

/-- C6, amended: for every store and every registration with
`capacity ≥ blksize` whose store operations succeed, the call appends exactly
`capacity / blksize` block rows of the datanode, with consecutive new ids,
`allocated = 0` and `disabled = 0`, and acknowledges with status 0 and (as
`int32`) the smallest and the largest id among all blocks the datanode owns after
the call. When the datanode owned no block before the call these are the first
and the last id just inserted, and when these fit `int32`,
`EndBlockID - StartBlockID + 1 = capacity / blksize`. -/
theorem C6_registry_result (st : Store) (ip : String) (port : Int) (mount : String)
    (capacity : Int) (hcap : blksize ≤ capacity) :
    (DatanodeRegistry noRegistryFaults st ip port mount capacity).1.blk =
      st.blk ++ newBlks st.nextBlkid ip port (capacity / blksize).toNat ∧
    ((newBlks st.nextBlkid ip port (capacity / blksize).toNat).length : Int) =
      capacity / blksize ∧
    (∀ b ∈ newBlks st.nextBlkid ip port (capacity / blksize).toNat,
      b.hostip = ip ∧ b.hostport = port ∧ b.allocated = 0 ∧ b.disabled = 0) ∧
    ∃ first last : Int,
      (DatanodeRegistry noRegistryFaults st ip port mount capacity).2 =
        some { Ret := 0, StartBlockID := toInt32 first, EndBlockID := toInt32 last } ∧
      first ∈ (DatanodeRegistry noRegistryFaults st ip port mount capacity).1.hostBlkids
        ip port ∧
      last ∈ (DatanodeRegistry noRegistryFaults st ip port mount capacity).1.hostBlkids
        ip port ∧
      (∀ x ∈ (DatanodeRegistry noRegistryFaults st ip port mount capacity).1.hostBlkids
        ip port, first ≤ x ∧ x ≤ last) ∧
      (st.hostBlkids ip port = [] →
        first = st.nextBlkid ∧ last = st.nextBlkid + capacity / blksize - 1 ∧
        (-2147483648 ≤ st.nextBlkid → st.nextBlkid + capacity / blksize ≤ 2147483648 →
          toInt32 last - toInt32 first + 1 = capacity / blksize)) := by
  have hdiv : Int.tdiv capacity blksize = capacity / blksize :=
    Int.tdiv_eq_ediv (by simp only [blksize] at hcap; omega) (by decide)
  have hpos : 1 ≤ capacity / blksize := by
    simp only [blksize] at hcap ⊢
    omega
  obtain ⟨hst, hack⟩ := DatanodeRegistry_noFaults st ip port mount capacity
  rw [hdiv] at hst
  have hn : ((capacity / blksize).toNat : Int) = capacity / blksize :=
    Int.toNat_of_nonneg (by omega)
  have hn1 : 1 ≤ (capacity / blksize).toNat := by omega
  have hblk : (DatanodeRegistry noRegistryFaults st ip port mount capacity).1.blk =
      st.blk ++ newBlks st.nextBlkid ip port (capacity / blksize).toNat := by rw [hst]
  have hids : (DatanodeRegistry noRegistryFaults st ip port mount capacity).1.hostBlkids
      ip port = st.hostBlkids ip port ++
        (List.range (capacity / blksize).toNat).map fun (k : Nat) => st.nextBlkid + (k : Int) :=
    hostBlkids_append_newBlks st ip port _ _ hblk
  have hne : (DatanodeRegistry noRegistryFaults st ip port mount capacity).1.hostBlkids
      ip port ≠ [] := by
    rw [hids]
    intro h
    have := congrArg List.length h
    simp at this
    omega
  obtain ⟨first, last, h1, h2, h3, h4⟩ := hack hne
  refine ⟨hblk, ?_, (newBlks_spec _ _ _ _).2.1, first, last, h1, h2, h3, h4, ?_⟩
  · rw [(newBlks_spec _ _ _ _).1, hn]
  · intro hnone
    rw [hids, hnone, List.nil_append] at h2 h3 h4
    have hfirst : first = st.nextBlkid := by
      obtain ⟨k, _, hk⟩ := List.mem_map.mp h2
      have h0 := (h4 (st.nextBlkid + ((0 : Nat) : Int))
        (List.mem_map.mpr ⟨0, List.mem_range.mpr (by omega), rfl⟩)).1
      omega
    have hlast : last = st.nextBlkid + capacity / blksize - 1 := by
      obtain ⟨k, hk1, hk⟩ := List.mem_map.mp h3
      have hk2 := List.mem_range.mp hk1
      have h0 := (h4 (st.nextBlkid + (((capacity / blksize).toNat - 1 : Nat) : Int))
        (List.mem_map.mpr ⟨(capacity / blksize).toNat - 1,
          List.mem_range.mpr (by omega), rfl⟩)).2
      omega
    refine ⟨hfirst, hlast, ?_⟩
    intro hlo hhi
    rw [hfirst, hlast]
    simp only [toInt32]
    omega

/-- Witness for C6 (amended): the first registration on the empty store, with
capacity 100, inserts ten blocks and acknowledges the range 1..10. -/
theorem C6_registry_result_witness :
    (DatanodeRegistry noRegistryFaults emptyStore "10.0.0.1" 8000 "/data" 100).2 =
      some { Ret := 0, StartBlockID := 1, EndBlockID := 10 } ∧
    (DatanodeRegistry noRegistryFaults emptyStore "10.0.0.1" 8000 "/data" 100).1.blk =
      emptyStore.blk ++ newBlks emptyStore.nextBlkid "10.0.0.1" 8000 (100 / blksize).toNat ∧
    ((newBlks emptyStore.nextBlkid "10.0.0.1" 8000 (100 / blksize).toNat).length : Int) =
      100 / blksize :=
  ⟨by decide,
   (C6_registry_result emptyStore "10.0.0.1" 8000 "/data" 100 (by decide)).1,
   (C6_registry_result emptyStore "10.0.0.1" 8000 "/data" 100 (by decide)).2.1⟩

/-! ## Claims: spread of a group over hosts -/

/-- What the block query returns when `blkid` is a key of `blk`: pairwise
different ids of unallocated blocks on pairwise different addresses. -/
theorem selectBlks_props (rd : Rand) (i : Nat) (blk : List Blk)
    (hkey : (blk.map fun b => b.blkid).Nodup) :
    (selectBlks rd i blk).Nodup ∧
    (∀ id ∈ selectBlks rd i blk, ∃ b ∈ blk, b.blkid = id ∧ b.allocated = 0) ∧
    (selectBlks rd i blk).length =
      min 3 (hostips (blk.filter fun b => b.allocated = 0)).length ∧
    ∀ b1 ∈ blk, ∀ b2 ∈ blk, b1.blkid ∈ selectBlks rd i blk → b2.blkid ∈ selectBlks rd i blk →
      b1.hostip = b2.hostip → b1 = b2 := by
  obtain ⟨bs, hsel, hmem, hhost, hlen⟩ := selectBlks_spec rd i blk
  have hinj := List.inj_on_of_nodup_map hkey
  have hbs : ∀ b ∈ blk, b.blkid ∈ selectBlks rd i blk → b ∈ bs := by
    intro b hb hid
    rw [hsel] at hid
    obtain ⟨c, hc, hcid⟩ := List.mem_map.mp hid
    have : c = b := hinj (hmem c hc).1 hb hcid
    rw [← this]; exact hc
  refine ⟨?_, ?_, ?_, ?_⟩
  · rw [hsel]
    apply List.Nodup.map_on _ hhost.of_map
    intro x hx y hy hxy
    exact hinj (hmem x hx).1 (hmem y hy).1 hxy
  · intro id hid
    rw [hsel] at hid
    obtain ⟨c, hc, hcid⟩ := List.mem_map.mp hid
    exact ⟨c, (hmem c hc).1, hcid, (hmem c hc).2⟩
  · rw [hsel, List.length_map, hlen]
  · intro b1 hb1 b2 hb2 h1 h2 hh
    exact List.inj_on_of_nodup_map hhost (hbs b1 hb1 h1) (hbs b2 hb2 h2) hh

/-- Three unallocated blocks on three addresses make three groups for the
block query. -/
theorem three_le_hostips (blk : List Blk) (b1 b2 b3 : Blk)
    (h1 : b1 ∈ blk) (h2 : b2 ∈ blk) (h3 : b3 ∈ blk)
    (f1 : b1.allocated = 0) (f2 : b2.allocated = 0) (f3 : b3.allocated = 0)
    (d12 : b1.hostip ≠ b2.hostip) (d13 : b1.hostip ≠ b3.hostip) (d23 : b2.hostip ≠ b3.hostip) :
    3 ≤ (hostips (blk.filter fun b => b.allocated = 0)).length := by
  have hnd : [b1.hostip, b2.hostip, b3.hostip].Nodup := by
    simp [d12, d13, d23]
  have hsub : [b1.hostip, b2.hostip, b3.hostip] ⊆
      hostips (blk.filter fun b => b.allocated = 0) := by
    intro h hh
    simp only [List.mem_cons, List.mem_singleton, List.not_mem_nil, or_false] at hh
    rw [mem_hostips]
    rcases hh with hh | hh | hh
    · exact ⟨b1, by simp [List.mem_filter, h1, f1], hh.symm⟩
    · exact ⟨b2, by simp [List.mem_filter, h2, f2], hh.symm⟩
    · exact ⟨b3, by simp [List.mem_filter, h3, f3], hh.symm⟩
  exact (List.subperm_of_subset hnd hsub).length_le

/-- C5, counterexample: three datanodes `10.0.0.1:8001`, `:8002`, `:8003`, each
owning one unallocated, non-disabled block. The group `CreateVol` creates
contains the single block 1. -/
theorem C5_three_hosts_one_address :
    oneAddress.blk =
      [{ blkid := 1, hostip := "10.0.0.1", hostport := 8001, allocated := 0, disabled := 0 },
       { blkid := 2, hostip := "10.0.0.1", hostport := 8002, allocated := 0, disabled := 0 },
       { blkid := 3, hostip := "10.0.0.1", hostport := 8003, allocated := 0, disabled := 0 }] ∧
    (CreateVol noCreateVolFaults zeroRand "uuid-1" oneAddress "vol" 10).2 =
      ({ Ret := 0, UUID := "uuid-1" }, [[1]]) ∧
    (CreateVol noCreateVolFaults zeroRand "uuid-1" oneAddress "vol" 10).1.blkgrp =
      [{ blkgrpid := 1, blks := ['1', ','], volume_uuid := "uuid-1" }] ∧
    (CreateVol noCreateVolFaults zeroRand "uuid-1" oneAddress "vol" 10).1.groupedIds = [1] := by
  decide

/-- C5, amended: hosts are told apart by their address (`hostip`) only. For
every store in which `blkid` is a key, every iteration of the allocation loop
that completes at a moment when three unallocated blocks lie on three different
addresses selects exactly three different block ids, all of unallocated blocks,
whose blocks lie on pairwise different addresses; the group row it inserts
records exactly these ids. -/
theorem C5_spread_over_addresses (f : CreateVolFaults) (rd : Rand) (uuid : String) (i : Nat)
    (st st1 : Store) (rows : List Int) (b1 b2 b3 : Blk)
    (hkey : (st.blk.map fun b => b.blkid).Nodup)
    (h1 : b1 ∈ st.blk) (h2 : b2 ∈ st.blk) (h3 : b3 ∈ st.blk)
    (f1 : b1.allocated = 0) (f2 : b2.allocated = 0) (f3 : b3.allocated = 0)
    (d12 : b1.hostip ≠ b2.hostip) (d13 : b1.hostip ≠ b3.hostip) (d23 : b2.hostip ≠ b3.hostip)
    (hg : allocGroup f rd uuid i st = (st1, some rows)) :
    rows.length = 3 ∧ rows.Nodup ∧
    (∀ id ∈ rows, ∃ b ∈ st.blk, b.blkid = id ∧ b.allocated = 0) ∧
    (∀ c1 ∈ st.blk, ∀ c2 ∈ st.blk, c1.blkid ∈ rows → c2.blkid ∈ rows →
      c1.blkid ≠ c2.blkid → c1.hostip ≠ c2.hostip) ∧
    (f.execGrp i = false →
      st1.blkgrp = st.blkgrp ++
        [{ blkgrpid := st.nextBlkgrpid, blks := joinIds rows, volume_uuid := uuid }] ∧
      blkgrpIds (joinIds rows) = rows) := by
  obtain ⟨hrows, hst⟩ := allocGroup_some f rd uuid i st st1 rows hg
  obtain ⟨p1, p2, p3, p4⟩ := selectBlks_props rd i st.blk hkey
  have hthree := three_le_hostips st.blk b1 b2 b3 h1 h2 h3 f1 f2 f3 d12 d13 d23
  rw [← hrows] at p1 p2 p3 p4
  refine ⟨by rw [p3]; omega, p1, p2, ?_, ?_⟩
  · intro c1 hc1 c2 hc2 m1 m2 hne hh
    exact hne (congrArg _ (p4 c1 hc1 c2 hc2 m1 m2 hh))
  · intro hx
    rw [hx] at hst
    simp only [Bool.false_eq_true, if_false] at hst
    exact ⟨by rw [hst]; rfl, blkgrpIds_joinIds rows⟩

/-- Witness for C5 (amended): the first iteration on `threeHosts` selects the
blocks 1, 2, 3 of the three addresses. -/
theorem C5_spread_over_addresses_witness :
    (allocGroup noCreateVolFaults zeroRand "uuid-1" 0 threeHosts).2 = some [1, 2, 3] ∧
    ([1, 2, 3] : List Int).length = 3 ∧ ([1, 2, 3] : List Int).Nodup :=
  ⟨by decide,
   (C5_spread_over_addresses noCreateVolFaults zeroRand "uuid-1" 0 threeHosts
    (allocGroup noCreateVolFaults zeroRand "uuid-1" 0 threeHosts).1 [1, 2, 3]
    { blkid := 1, hostip := "10.0.0.1", hostport := 8000, allocated := 0, disabled := 0 }
    { blkid := 2, hostip := "10.0.0.2", hostport := 8000, allocated := 0, disabled := 0 }
    { blkid := 3, hostip := "10.0.0.3", hostport := 8000, allocated := 0, disabled := 0 }
    (by decide) (by decide) (by decide) (by decide) (by decide) (by decide) (by decide)
    (by decide) (by decide) (by decide) (by decide)).1,
   (C5_spread_over_addresses noCreateVolFaults zeroRand "uuid-1" 0 threeHosts
    (allocGroup noCreateVolFaults zeroRand "uuid-1" 0 threeHosts).1 [1, 2, 3]
    { blkid := 1, hostip := "10.0.0.1", hostport := 8000, allocated := 0, disabled := 0 }
    { blkid := 2, hostip := "10.0.0.2", hostport := 8000, allocated := 0, disabled := 0 }
    { blkid := 3, hostip := "10.0.0.3", hostport := 8000, allocated := 0, disabled := 0 }
    (by decide) (by decide) (by decide) (by decide) (by decide) (by decide) (by decide)
    (by decide) (by decide) (by decide) (by decide)).2.1⟩

/-! ## Claims: allocation count -/

theorem filter_uuid_append_mkGroups (uuid : String) (old : List Blkgrp) (first : Int)
    (sel : List (List Int)) (hfresh : ∀ g ∈ old, g.volume_uuid ≠ uuid) :
    (old ++ mkGroups uuid first sel).filter (fun r => r.volume_uuid = uuid) =
      mkGroups uuid first sel := by
  have h1 : old.filter (fun r => decide (r.volume_uuid = uuid)) = [] := by
    rw [List.filter_eq_nil_iff]
    intro g hg
    simpa using hfresh g hg
  have h2 : (mkGroups uuid first sel).filter (fun r => decide (r.volume_uuid = uuid)) =
      mkGroups uuid first sel := by
    apply List.filter_eq_self.mpr
    intro g hg
    simpa using uuid_mkGroups uuid sel first g hg
  rw [List.filter_append, h1, h2, List.nil_append]

theorem ids_mkGroups (uuid : String) (first : Int) (sel : List (List Int)) :
    (mkGroups uuid first sel).map (fun r => blkgrpIds r.blks) = sel := by
  have := blks_mkGroups uuid sel first
  have h2 : (mkGroups uuid first sel).map (fun r => blkgrpIds r.blks) =
      ((mkGroups uuid first sel).map (fun g => g.blks)).map blkgrpIds := by
    rw [List.map_map]; rfl
  rw [h2, this, List.map_map]
  conv_rhs => rw [← List.map_id sel]
  apply List.map_congr_left
  intro rows _
  simp [blkgrpIds_joinIds]

theorem map_blkid_markBlks (ids : List Int) (blk : List Blk) :
    (markBlks ids blk).map (fun b => b.blkid) = blk.map (fun b => b.blkid) := by
  simp only [markBlks, List.map_map]
  apply List.map_congr_left
  intro b _
  simp only [Function.comp]
  split <;> rfl

theorem length_selectBlks_le (rd : Rand) (i : Nat) (blk : List Blk) :
    (selectBlks rd i blk).length ≤ 3 := by
  obtain ⟨bs, hsel, _, _, hlen⟩ := selectBlks_spec rd i blk
  rw [hsel, List.length_map, hlen]
  omega

theorem length_flatten_selections_le (rd : Rand) :
    ∀ (n i : Nat) (blk : List Blk), (selections rd n i blk).flatten.length ≤ 3 * n := by
  intro n
  induction n with
  | zero => intro i blk; simp [selections]
  | succ n ih =>
    intro i blk
    simp only [selections, List.flatten_cons, List.length_append]
    have := ih (i + 1) (markBlks (selectBlks rd i blk) blk)
    have := length_selectBlks_le rd i blk
    omega

/-- Every selected id is the id of a block that was unallocated before the first
selection. -/
theorem selections_free (rd : Rand) :
    ∀ (n i : Nat) (blk : List Blk), ∀ id ∈ (selections rd n i blk).flatten,
      ∃ b ∈ blk, b.blkid = id ∧ b.allocated = 0 := by
  intro n
  induction n with
  | zero => intro i blk id hid; simp [selections] at hid
  | succ n ih =>
    intro i blk id hid
    simp only [selections, List.flatten_cons, List.mem_append] at hid
    rcases hid with hid | hid
    · obtain ⟨bs, hsel, hmem, _, _⟩ := selectBlks_spec rd i blk
      rw [hsel] at hid
      obtain ⟨c, hc, hcid⟩ := List.mem_map.mp hid
      exact ⟨c, (hmem c hc).1, hcid, (hmem c hc).2⟩
    · obtain ⟨b, hb, hbid, hfree⟩ := ih _ _ id hid
      simp only [markBlks, List.mem_map] at hb
      obtain ⟨c, hc, hcb⟩ := hb
      by_cases hm : c.blkid ∈ selectBlks rd i blk
      · rw [if_pos hm] at hcb
        rw [← hcb] at hfree
        simp at hfree
      · rw [if_neg hm] at hcb
        exact ⟨c, hc, by rw [hcb]; exact hbid, by rw [hcb]; exact hfree⟩

theorem countP_split (p q : Blk → Bool) (l : List Blk) :
    l.countP p = l.countP (fun b => p b && q b) + l.countP (fun b => p b && !q b) := by
  induction l with
  | nil => rfl
  | cons a l ih =>
    simp only [List.countP_cons, ih]
    cases p a <;> cases q a <;> simp <;> omega

theorem countP_le_one (p : Blk → Bool) (l : List Blk) (hnd : l.Nodup)
    (h : ∀ x ∈ l, ∀ y ∈ l, p x = true → p y = true → x = y) : l.countP p ≤ 1 := by
  induction l with
  | nil => simp
  | cons a l ih =>
    have hl := ih hnd.of_cons fun x hx y hy => h x (by simp [hx]) y (by simp [hy])
    by_cases hp : p a = true
    · have hz : l.countP p = 0 := by
        rw [List.countP_eq_zero]
        intro y hy hpy
        have := h a (by simp) y (by simp [hy]) hp hpy
        rw [← this] at hy
        exact (List.nodup_cons.mp hnd).1 hy
      simp [List.countP_cons, hp, hz]
    · simp [List.countP_cons, hp]
      exact hl

/-- One block query takes at most one unallocated block from each address. -/
theorem freeOn_markBlks_selectBlks (rd : Rand) (i : Nat) (blk : List Blk) (h : String)
    (hkey : (blk.map fun b => b.blkid).Nodup) :
    freeOn blk h ≤ freeOn (markBlks (selectBlks rd i blk) blk) h + 1 := by
  obtain ⟨_, _, _, p4⟩ := selectBlks_props rd i blk hkey
  have hsplit := countP_split (fun b => decide (b.allocated = 0 ∧ b.hostip = h))
    (fun b => decide (b.blkid ∈ selectBlks rd i blk)) blk
  have hone : blk.countP (fun b => decide (b.allocated = 0 ∧ b.hostip = h) &&
      decide (b.blkid ∈ selectBlks rd i blk)) ≤ 1 := by
    apply countP_le_one _ _ hkey.of_map
    intro x hx y hy px py
    simp only [Bool.and_eq_true, decide_eq_true_eq] at px py
    exact p4 x hx y hy px.2 py.2 (by rw [px.1.2, py.1.2])
  have hafter : freeOn (markBlks (selectBlks rd i blk) blk) h =
      blk.countP (fun b => decide (b.allocated = 0 ∧ b.hostip = h) &&
        !decide (b.blkid ∈ selectBlks rd i blk)) := by
    simp only [freeOn, markBlks, List.countP_map]
    apply List.countP_congr
    intro b _
    simp only [Function.comp]
    by_cases hm : b.blkid ∈ selectBlks rd i blk <;> simp [hm]
  simp only [freeOn] at hafter ⊢
  omega

/-- When three addresses each have `n` unallocated blocks, each of `n`
successive block queries returns three rows. -/
theorem length_flatten_selections_eq (rd : Rand) (h1 h2 h3 : String)
    (d12 : h1 ≠ h2) (d13 : h1 ≠ h3) (d23 : h2 ≠ h3) :
    ∀ (n i : Nat) (blk : List Blk), (blk.map fun b => b.blkid).Nodup →
      n ≤ freeOn blk h1 → n ≤ freeOn blk h2 → n ≤ freeOn blk h3 →
      (selections rd n i blk).flatten.length = 3 * n := by
  intro n
  induction n with
  | zero => intro i blk _ _ _ _; simp [selections]
  | succ n ih =>
    intro i blk hkey c1 c2 c3
    have hex : ∀ h, n + 1 ≤ freeOn blk h → ∃ b ∈ blk, b.allocated = 0 ∧ b.hostip = h := by
      intro h hc
      have hpos : 0 < blk.countP (fun b => decide (b.allocated = 0 ∧ b.hostip = h)) := by
        simp only [freeOn] at hc; omega
      obtain ⟨b, hb, hp⟩ := List.countP_pos_iff.mp hpos
      exact ⟨b, hb, by simpa using hp⟩
    obtain ⟨b1, m1, f1, e1⟩ := hex h1 c1
    obtain ⟨b2, m2, f2, e2⟩ := hex h2 c2
    obtain ⟨b3, m3, f3, e3⟩ := hex h3 c3
    have hthree := three_le_hostips blk b1 b2 b3 m1 m2 m3 f1 f2 f3
      (by rw [e1, e2]; exact d12) (by rw [e1, e3]; exact d13) (by rw [e2, e3]; exact d23)
    have hlen : (selectBlks rd i blk).length = 3 := by
      rw [(selectBlks_props rd i blk hkey).2.2.1]
      omega
    have hkey1 : ((markBlks (selectBlks rd i blk) blk).map fun b => b.blkid).Nodup := by
      rw [map_blkid_markBlks]; exact hkey
    have g1 := freeOn_markBlks_selectBlks rd i blk h1 hkey
    have g2 := freeOn_markBlks_selectBlks rd i blk h2 hkey
    have g3 := freeOn_markBlks_selectBlks rd i blk h3 hkey
    have := ih (i + 1) _ hkey1 (by omega) (by omega) (by omega)
    simp only [selections, List.flatten_cons, List.length_append, hlen, this]
    omega

/-- C3, counterexample: on the empty store `CreateVol` with quota 10 returns
status 0, inserts one `blkgrp` row for the volume, and that row records no
block id at all, not `ceil(10 / 10) * 3 = 3`. -/
theorem C3_success_without_blocks :
    (CreateVol noCreateVolFaults zeroRand "uuid-1" emptyStore "vol" 10).2.1 =
      { Ret := 0, UUID := "uuid-1" } ∧
    (CreateVol noCreateVolFaults zeroRand "uuid-1" emptyStore "vol" 10).1.blkgrp =
      [{ blkgrpid := 1, blks := [], volume_uuid := "uuid-1" }] ∧
    ((CreateVol noCreateVolFaults zeroRand "uuid-1" emptyStore "vol" 10).1.volumeIds
      "uuid-1").length = 0 ∧
    (10 + blksize - 1) / blksize * 3 = 3 := by
  decide

/-- C3, amended: for every store, every quota `0 < Q ≤ 2^31 - 1` and every
`CreateVol` call with a UUID not yet used in `blkgrp` that returns status 0 with
its group inserts taking effect, the block ids recorded in the `blkgrp` rows of
the UUID are the ids the call selected; each was unallocated before the call and
is allocated after it; their number is at most `ceil(Q / blksize) * 3`, and it
equals `ceil(Q / blksize) * 3` when `blkid` is a key of `blk` and three
addresses each hold at least `ceil(Q / blksize)` unallocated blocks. -/
theorem C3_allocation_count (f : CreateVolFaults) (rd : Rand) (uuid : String) (st : Store)
    (name : String) (quota : Int) (hq : 0 < quota) (hmax : quota ≤ 2147483647)
    (hfresh : ∀ g ∈ st.blkgrp, g.volume_uuid ≠ uuid) (hx : ∀ k, f.execGrp k = false)
    (hret : (CreateVol f rd uuid st name quota).2.1.Ret = 0) :
    (CreateVol f rd uuid st name quota).1.volumeIds uuid =
      (CreateVol f rd uuid st name quota).2.2.flatten ∧
    (∀ id ∈ (CreateVol f rd uuid st name quota).1.volumeIds uuid,
      (∃ b ∈ st.blk, b.blkid = id ∧ b.allocated = 0) ∧
      ∀ b ∈ (CreateVol f rd uuid st name quota).1.blk, b.blkid = id → b.allocated = 1) ∧
    ((((CreateVol f rd uuid st name quota).1.volumeIds uuid).length : Int) ≤
      (quota + blksize - 1) / blksize * 3) ∧
    ((st.blk.map fun b => b.blkid).Nodup →
      ∀ h1 h2 h3 : String, h1 ≠ h2 → h1 ≠ h3 → h2 ≠ h3 →
        (quota + blksize - 1) / blksize ≤ freeOn st.blk h1 →
        (quota + blksize - 1) / blksize ≤ freeOn st.blk h2 →
        (quota + blksize - 1) / blksize ≤ freeOn st.blk h3 →
        (((CreateVol f rd uuid st name quota).1.volumeIds uuid).length : Int) =
          (quota + blksize - 1) / blksize * 3) := by
  have hnum : blkgrpnum quota = (quota + blksize - 1) / blksize := by
    have h1 : Int.tdiv quota 10 = quota / 10 := Int.tdiv_eq_ediv (by omega) (by omega)
    have h3 : Int.tmod quota 10 = quota % 10 := Int.tmod_eq_emod (by omega) (by omega)
    simp only [blkgrpnum, blksize, toInt32, h1, h3]
    split_ifs <;> omega
  have hpos : 0 ≤ (quota + blksize - 1) / blksize := by
    simp only [blksize]; omega
  have hn : (((blkgrpnum quota).toNat : Nat) : Int) = (quota + blksize - 1) / blksize := by
    rw [hnum]; exact Int.toNat_of_nonneg hpos
  rw [CreateVol_ok f rd uuid st name quota hx hret]
  have hids : Store.volumeIds
      { st with
        volumes := if f.execVol then st.volumes
                   else st.volumes ++ [{ uuid := uuid, name := name, size := quota }]
        blk := markBlks (selections rd (blkgrpnum quota).toNat 0 st.blk).flatten st.blk
        blkgrp := st.blkgrp ++
          mkGroups uuid st.nextBlkgrpid (selections rd (blkgrpnum quota).toNat 0 st.blk)
        nextBlkgrpid := st.nextBlkgrpid + (blkgrpnum quota).toNat } uuid =
      (selections rd (blkgrpnum quota).toNat 0 st.blk).flatten := by
    simp only [Store.volumeIds]
    rw [filter_uuid_append_mkGroups uuid _ _ _ hfresh, ids_mkGroups]
  rw [hids]
  refine ⟨rfl, ?_, ?_, ?_⟩
  · intro id hid
    refine ⟨selections_free rd _ _ _ id hid, ?_⟩
    intro b hb hbid
    simp only [markBlks, List.mem_map] at hb
    obtain ⟨c, _, hcb⟩ := hb
    by_cases hm : c.blkid ∈ (selections rd (blkgrpnum quota).toNat 0 st.blk).flatten
    · rw [if_pos hm] at hcb
      rw [← hcb]
    · rw [if_neg hm] at hcb
      rw [hcb, hbid] at hm
      exact absurd hid hm
  · have := length_flatten_selections_le rd (blkgrpnum quota).toNat 0 st.blk
    omega
  · intro hkey h1 h2 h3 d12 d13 d23 c1 c2 c3
    have := length_flatten_selections_eq rd h1 h2 h3 d12 d13 d23 (blkgrpnum quota).toNat 0
      st.blk hkey (by omega) (by omega) (by omega)
    omega

/-- Witness for C3 (amended): quota 25 on three datanodes with ten blocks each;
the three groups record nine block ids. -/
theorem C3_allocation_count_witness :
    (((CreateVol noCreateVolFaults zeroRand "uuid-1" threeDisks "v1" 25).1.volumeIds
      "uuid-1").length : Int) = (25 + blksize - 1) / blksize * 3 :=
  (C3_allocation_count noCreateVolFaults zeroRand "uuid-1" threeDisks "v1" 25
    (by decide) (by decide) (by decide) (fun _ => rfl) (by decide)).2.2.2
    (by decide) "10.0.0.1" "10.0.0.2" "10.0.0.3" (by decide) (by decide) (by decide)
    (by decide) (by decide) (by decide)

/-! ## Claims: no block in two groups -/

theorem Store.Inv.congr {st st1 : Store} (h : st.Inv) (hb : st1.blk = st.blk)
    (hg : st1.blkgrp = st.blkgrp) (hn : st1.nextBlkid = st.nextBlkid) : st1.Inv := by
  unfold Store.Inv Store.groupedIds at h ⊢
  rw [hb, hg, hn]
  exact h

theorem Inv_insertBlk (st : Store) (ip : String) (port : Int) (h : st.Inv) :
    (st.insertBlk ip port 0).Inv := by
  obtain ⟨h1, h2, h3, h4⟩ := h
  refine ⟨?_, ?_, ?_, h4⟩
  · simp only [Store.insertBlk, List.map_append, List.map_cons, List.map_nil]
    rw [List.nodup_append]
    refine ⟨h1, by simp, ?_⟩
    intro x hx hy
    obtain ⟨b, hb, hbx⟩ := List.mem_map.mp hx
    simp only [List.mem_singleton] at hy
    have := h2 b hb
    omega
  · intro b hb
    simp only [Store.insertBlk, List.mem_append, List.mem_singleton] at hb ⊢
    rcases hb with hb | hb
    · have := h2 b hb; omega
    · rw [hb]; simp
  · intro id hid
    obtain ⟨b, hb, hbid, hal⟩ := h3 id hid
    exact ⟨b, by simp [Store.insertBlk, hb], hbid, hal⟩

theorem Inv_insertBlks (f : RegistryFaults) (ip : String) (port : Int) :
    ∀ (n i : Nat) (st : Store), st.Inv → (insertBlks f ip port n i st).Inv := by
  intro n
  induction n with
  | zero => intro i st h; exact h
  | succ n ih =>
    intro i st h
    simp only [insertBlks]
    apply ih
    split
    · exact h
    · exact Inv_insertBlk st ip port h

theorem Inv_registry (f : RegistryFaults) (st : Store) (ip : String) (port : Int)
    (mount : String) (capacity : Int) (h : st.Inv) :
    (DatanodeRegistry f st ip port mount capacity).1.Inv := by
  have hd : (if f.execDisk = true then st else st.insertDisk ip port mount capacity).Inv := by
    split
    · exact h
    · exact h.congr rfl rfl rfl
  have hi := Inv_insertBlks f ip port (Int.tdiv capacity blksize).toNat 0 _ hd
  unfold DatanodeRegistry
  split
  · exact h
  · dsimp only
    split
    · exact hd
    · split
      · exact hi
      · split <;> exact hi

theorem Inv_disableBlks (st : Store) (ip : String) (port : Int) (h : st.Inv) :
    (st.disableBlks ip port).Inv := by
  obtain ⟨h1, h2, h3, h4⟩ := h
  have hids : (st.disableBlks ip port).blk.map (fun b => b.blkid) =
      st.blk.map (fun b => b.blkid) := by
    simp only [Store.disableBlks, List.map_map]
    apply List.map_congr_left
    intro b _
    simp only [Function.comp]
    split <;> rfl
  refine ⟨by rw [hids]; exact h1, ?_, ?_, h4⟩
  · intro b hb
    simp only [Store.disableBlks, List.mem_map] at hb
    obtain ⟨c, hc, hcb⟩ := hb
    have := h2 c hc
    rw [← hcb]
    split <;> exact this
  · intro id hid
    obtain ⟨b, hb, hbid, hal⟩ := h3 id hid
    refine ⟨if b.hostip = ip ∧ b.hostport = port then { b with disabled := 1 } else b,
      ?_, ?_, ?_⟩
    · simp only [Store.disableBlks, List.mem_map]
      exact ⟨b, hb, rfl⟩
    · split <;> exact hbid
    · split <;> exact hal

theorem Inv_heartbeat (f : HeartbeatFaults) (st : Store) (ip : String)
    (port used free statu : Int) (h : st.Inv) :
    (DatanodeHeartbeat f st ip port used free statu).1.Inv := by
  have hu : (st.updateDisk used free statu ip port).Inv := h.congr rfl rfl rfl
  unfold DatanodeHeartbeat
  split
  · exact h
  · split
    · exact h
    · dsimp only
      split
      · split
        · exact hu
        · split
          · exact hu
          · exact Inv_disableBlks _ ip port hu
      · exact hu

theorem Inv_markAll (st : Store) (done : List Int) (h : st.Inv) : (st.markAll done).Inv := by
  obtain ⟨h1, h2, h3, h4⟩ := h
  refine ⟨?_, ?_, ?_, h4⟩
  · simp only [Store.markAll]
    rw [map_blkid_markBlks]
    exact h1
  · intro b hb
    simp only [Store.markAll, markBlks, List.mem_map] at hb
    obtain ⟨c, hc, hcb⟩ := hb
    have := h2 c hc
    rw [← hcb]
    split <;> exact this
  · intro id hid
    obtain ⟨b, hb, hbid, hal⟩ := h3 id hid
    refine ⟨if b.blkid ∈ done then { b with allocated := 1 } else b, ?_, ?_, ?_⟩
    · simp only [Store.markAll, markBlks, List.mem_map]
      exact ⟨b, hb, rfl⟩
    · split <;> exact hbid
    · split
      · rfl
      · exact hal

theorem groupedIds_insertBlkgrp (st : Store) (rows : List Int) (uuid : String) :
    (st.insertBlkgrp (joinIds rows) uuid).groupedIds = st.groupedIds ++ rows := by
  simp [Store.groupedIds, Store.insertBlkgrp, blkgrpIds_joinIds]

/-- Marking the rows of a block query and recording them as a group keeps the
invariant: the rows were unallocated, so none of them is grouped yet. -/
theorem Inv_group (rd : Rand) (i : Nat) (st : Store) (uuid : String) (h : st.Inv) :
    ((st.markAll (selectBlks rd i st.blk)).insertBlkgrp
      (joinIds (selectBlks rd i st.blk)) uuid).Inv := by
  obtain ⟨p1, p2, _, _⟩ := selectBlks_props rd i st.blk h.1
  have hm := Inv_markAll st (selectBlks rd i st.blk) h
  obtain ⟨h1, h2, h3, h4⟩ := h
  obtain ⟨m1, m2, m3, _⟩ := hm
  refine ⟨m1, m2, ?_, ?_⟩
  · intro id hid
    rw [groupedIds_insertBlkgrp] at hid
    rcases List.mem_append.mp hid with hid | hid
    · exact m3 id hid
    · obtain ⟨b, hb, hbid, _⟩ := p2 id hid
      refine ⟨{ b with allocated := 1 }, ?_, hbid, rfl⟩
      simp only [Store.insertBlkgrp, Store.markAll, markBlks, List.mem_map]
      exact ⟨b, hb, by rw [if_pos (by rw [hbid]; exact hid)]⟩
  · rw [groupedIds_insertBlkgrp]
    rw [List.nodup_append]
    refine ⟨h4, p1, ?_⟩
    intro id hg hs
    obtain ⟨b, hb, hbid, hal⟩ := h3 id hg
    obtain ⟨c, hc, hcid, hfree⟩ := p2 id hs
    have : b = c := List.inj_on_of_nodup_map h1 hb hc (by rw [hbid, hcid])
    rw [this, hfree] at hal
    exact absurd hal (by decide)

theorem Inv_allocGroup (f : CreateVolFaults) (rd : Rand) (uuid : String) (i : Nat)
    (st : Store) (h : st.Inv) : (allocGroup f rd uuid i st).1.Inv := by
  cases hr : allocGroup f rd uuid i st with
  | mk st1 r =>
    cases r with
    | none =>
      obtain ⟨done, _, hst⟩ := allocGroup_none f rd uuid i st st1 hr
      rw [hst]
      exact Inv_markAll st done h
    | some rows =>
      obtain ⟨hrows, hst⟩ := allocGroup_some f rd uuid i st st1 rows hr
      subst hrows
      simp only
      rw [hst]
      split
      · exact Inv_markAll st _ h
      · exact Inv_group rd i st uuid h

theorem Inv_allocGroups (f : CreateVolFaults) (rd : Rand) (uuid : String) :
    ∀ (n i : Nat) (st : Store) (sel : List (List Int)), st.Inv →
      (allocGroups f rd uuid n i st sel).1.Inv := by
  intro n
  induction n with
  | zero => intro i st sel h; exact h
  | succ n ih =>
    intro i st sel h
    have hg := Inv_allocGroup f rd uuid i st h
    unfold allocGroups
    split
    · rename_i st1 heq
      rw [heq] at hg
      exact hg
    · rename_i st1 rows heq
      rw [heq] at hg
      exact ih _ _ _ hg

theorem Inv_createVol (f : CreateVolFaults) (rd : Rand) (uuid : String) (st : Store)
    (name : String) (size : Int) (h : st.Inv) : (CreateVol f rd uuid st name size).1.Inv := by
  unfold CreateVol
  split
  · exact h
  · dsimp only
    have hv : (if f.execVol = true then st else st.insertVolume uuid name size).Inv := by
      split
      · exact h
      · exact h.congr rfl rfl rfl
    exact Inv_allocGroups f rd uuid _ _ _ _ hv

theorem Inv_of_reachable (st : Store) (h : Reachable st) : st.Inv := by
  induction h with
  | empty => exact ⟨by simp [emptyStore], by simp [emptyStore],
      by simp [emptyStore, Store.groupedIds], by simp [emptyStore, Store.groupedIds]⟩
  | registry f ip port mount capacity _ ih => exact Inv_registry f _ ip port mount capacity ih
  | heartbeat f ip port used free statu _ ih => exact Inv_heartbeat f _ ip port used free statu ih
  | createVol f rd uuid name size _ ih => exact Inv_createVol f rd uuid _ name size ih

/-- C2 (uniqueness). In every store reachable from the empty store by sequential
`DatanodeRegistry`, `DatanodeHeartbeat` and `CreateVol` calls (store operations
succeeding, or failing), the block ids recorded in all `blkgrp` rows, listed row
after row, contain no id twice: no id occurs in two rows nor twice in one row. -/
theorem C2_grouped_ids_unique (st : Store) (h : Reachable st) : st.groupedIds.Nodup :=
  (Inv_of_reachable st h).2.2.2

/-- Witness for C2: the store of the example of the specification after
`CreateVol("v1", 25)`. -/
theorem C2_grouped_ids_unique_witness :
    (CreateVol noCreateVolFaults zeroRand "uuid-1" threeDisks "v1" 25).1.groupedIds.Nodup :=
  C2_grouped_ids_unique _
    (Reachable.createVol noCreateVolFaults zeroRand "uuid-1" "v1" 25
      (Reachable.registry noRegistryFaults "10.0.0.3" 8000 "/data" 100
        (Reachable.registry noRegistryFaults "10.0.0.2" 8000 "/data" 100
          (Reachable.registry noRegistryFaults "10.0.0.1" 8000 "/data" 100
            Reachable.empty))))

/-! ## Claims: topology round trip -/

theorem toInt32_of_range (x : Int) (h1 : -2147483648 ≤ x) (h2 : x ≤ 2147483647) :
    toInt32 x = x := by
  simp only [toInt32]
  omega

theorem filter_key_eq_singleton (blk : List Blk) (id : Int)
    (hkey : (blk.map fun b => b.blkid).Nodup) (hex : ∃ b ∈ blk, b.blkid = id) :
    ∃ b, blk.filter (fun b => b.blkid = id) = [b] ∧ b ∈ blk ∧ b.blkid = id := by
  obtain ⟨b, hb, hbid⟩ := hex
  have hle : blk.countP (fun b => decide (b.blkid = id)) ≤ 1 := by
    apply countP_le_one _ _ hkey.of_map
    intro x hx y hy px py
    simp only [decide_eq_true_eq] at px py
    exact List.inj_on_of_nodup_map hkey hx hy (by rw [px, py])
  have hmem : b ∈ blk.filter (fun b => decide (b.blkid = id)) := by
    simp [List.mem_filter, hb, hbid]
  have hlen : (blk.filter (fun b => decide (b.blkid = id))).length = 1 := by
    have := List.length_pos_of_mem hmem
    rw [List.countP_eq_length_filter] at hle
    omega
  obtain ⟨c, hc⟩ := List.length_eq_one.mp hlen
  rw [hc] at hmem
  simp only [List.mem_singleton] at hmem
  exact ⟨c, hc, by rw [← hmem]; exact hb, by rw [← hmem]; exact hbid⟩

/-- The elements of the text of one group resolve to one `BlockInfo` per
recorded id, in order; the empty element after the last comma resolves to
nothing because no block has id 0. -/
theorem infos_joinIds (aton : String → Int) (st : Store)
    (hkey : (st.blk.map fun b => b.blkid).Nodup) (hzero : ∀ b ∈ st.blk, b.blkid ≠ 0) :
    ∀ rows : List Int,
      (∀ id ∈ rows, -2147483648 ≤ id ∧ id ≤ 2147483647 ∧ ∃ b ∈ st.blk, b.blkid = id) →
      (((Split (joinIds rows)).flatMap (eleInfos aton st)).map fun info => info.BlockID) =
        rows ∧
      ∀ info ∈ (Split (joinIds rows)).flatMap (eleInfos aton st),
        ∃ b ∈ st.blk, b.blkid = info.BlockID ∧ info.DataNodeIP = aton b.hostip ∧
          info.DataNodePort = toInt32 b.hostport := by
  have hnil : eleInfos aton st [] = [] := by
    have : st.blk.filter (fun b => decide (b.blkid = (Atoi []).1)) = [] := by
      rw [List.filter_eq_nil_iff]
      intro b hb
      simpa [Atoi] using hzero b hb
    simp [eleInfos, this]
  have hele : ∀ id : Int, eleInfos aton st (Itoa id) =
      (st.blk.filter fun b => b.blkid = id).map (blockInfoOf aton id) := by
    intro id
    have hne : Itoa id ≠ [','] := by
      intro h
      exact comma_not_mem_Itoa id (by rw [h]; simp)
    simp [eleInfos, hne, Atoi_Itoa]
  intro rows
  rw [Split_joinIds, List.flatMap_append]
  simp only [List.flatMap_cons, List.flatMap_nil, hnil, List.append_nil]
  induction rows with
  | nil => intro _; simp
  | cons id rest ih =>
    intro hall
    obtain ⟨hlo, hhi, hex⟩ := hall id (by simp)
    obtain ⟨b, hb, hbm, hbid⟩ := filter_key_eq_singleton st.blk id hkey hex
    obtain ⟨ih1, ih2⟩ := ih (fun x hx => hall x (by simp [hx]))
    simp only [List.map_cons, List.flatMap_cons, hele, hb, List.map_nil, List.singleton_append]
    refine ⟨?_, ?_⟩
    · rw [ih1]
      simp [blockInfoOf, toInt32_of_range id hlo hhi]
    · intro info hinfo
      rcases List.mem_cons.mp hinfo with hinfo | hinfo
      · refine ⟨b, hbm, ?_, ?_, ?_⟩ <;>
          simp [hinfo, blockInfoOf, hbid, toInt32_of_range id hlo hhi]
      · exact ih2 info hinfo

/-- C9, counterexample: three status-0 calls on stores with positive block ids
after which `GetVolInfo` does not return what `CreateVol` wrote.
On `bigIds` (every store operation succeeding) the groups selected are
`[[2147483648, 2147483649, 2147483650]]`, and the `BlockInfo`s carry the ids
`-2147483648, -2147483647, -2147483646`.
On `threeHosts` with the volume insert failing, `GetVolInfo` returns an empty
volume id and name and quota 0.
On `threeHosts` with the group insert failing, the selection is `[[1, 2, 3]]`
and `GetVolInfo` returns no group. -/
theorem C9_round_trip_fails :
    ((CreateVol noCreateVolFaults zeroRand "uuid-1" bigIds "vol" 10).2 =
        ({ Ret := 0, UUID := "uuid-1" }, [[2147483648, 2147483649, 2147483650]]) ∧
      GetVolInfo noGetVolInfoFaults atonLength
          (CreateVol noCreateVolFaults zeroRand "uuid-1" bigIds "vol" 10).1 "uuid-1" =
        { Ret := 0,
          VolInfo := some
            { VolID := "uuid-1", VolName := "vol", SpaceQuota := 10,
              BlockGroups :=
                [{ BlockGroupID := 1,
                   BlockInfos :=
                     [{ BlockID := -2147483648, DataNodeIP := 8, DataNodePort := 8000 },
                      { BlockID := -2147483647, DataNodeIP := 8, DataNodePort := 8000 },
                      { BlockID := -2147483646, DataNodeIP := 8, DataNodePort := 8000 }] }] } }) ∧
    ((CreateVol volumeInsertFails zeroRand "uuid-1" threeHosts "vol" 10).2 =
        ({ Ret := 0, UUID := "uuid-1" }, [[1, 2, 3]]) ∧
      GetVolInfo noGetVolInfoFaults atonLength
          (CreateVol volumeInsertFails zeroRand "uuid-1" threeHosts "vol" 10).1 "uuid-1" =
        { Ret := 0,
          VolInfo := some
            { VolID := "", VolName := "", SpaceQuota := 0,
              BlockGroups :=
                [{ BlockGroupID := 1,
                   BlockInfos :=
                     [{ BlockID := 1, DataNodeIP := 8, DataNodePort := 8000 },
                      { BlockID := 2, DataNodeIP := 8, DataNodePort := 8000 },
                      { BlockID := 3, DataNodeIP := 8, DataNodePort := 8000 }] }] } }) ∧
    ((CreateVol groupInsertsFail zeroRand "uuid-1" threeHosts "vol" 10).2 =
        ({ Ret := 0, UUID := "uuid-1" }, [[1, 2, 3]]) ∧
      GetVolInfo noGetVolInfoFaults atonLength
          (CreateVol groupInsertsFail zeroRand "uuid-1" threeHosts "vol" 10).1 "uuid-1" =
        { Ret := 0,
          VolInfo := some
            { VolID := "uuid-1", VolName := "vol", SpaceQuota := 10, BlockGroups := [] } }) := by
  decide

/-- C9, amended (topology round trip). For every store in which `blkid` is a key with
values in `1 .. 2^31 - 1` and every `CreateVol(name, Q)` with an `int32` quota and
a UUID `u` not yet used in `volumes` and `blkgrp` that returns status 0 (its
inserts taking effect), `GetVolInfo(u)` on the resulting store (lookups
succeeding) returns status 0, `u`, the name and `Q`, and as many block groups as
`CreateVol` completed, in the same order; the `BlockInfo`s of the i-th group carry exactly
the block ids selected for the i-th group, in the same order, each with the
address and port stored in the `blk` row of that id. -/
theorem C9_topology_round_trip (f : CreateVolFaults) (rd : Rand) (uuid : String) (st : Store)
    (name : String) (quota : Int) (aton : String → Int)
    (hkey : (st.blk.map fun b => b.blkid).Nodup)
    (hpos : ∀ b ∈ st.blk, 0 < b.blkid) (hmaxid : ∀ b ∈ st.blk, b.blkid ≤ 2147483647)
    (hqlo : -2147483648 ≤ quota) (hqhi : quota ≤ 2147483647)
    (hnew : ∀ v ∈ st.volumes, v.uuid ≠ uuid)
    (hfresh : ∀ g ∈ st.blkgrp, g.volume_uuid ≠ uuid)
    (hv : f.execVol = false) (hx : ∀ k, f.execGrp k = false)
    (hret : (CreateVol f rd uuid st name quota).2.1.Ret = 0) :
    (CreateVol f rd uuid st name quota).2.1.UUID = uuid ∧
    ∃ groups : List BlockGroup,
      GetVolInfo noGetVolInfoFaults aton (CreateVol f rd uuid st name quota).1 uuid =
        { Ret := 0,
          VolInfo := some { VolID := uuid, VolName := name, SpaceQuota := quota,
                            BlockGroups := groups } } ∧
      List.Forall₂
        (fun (rows : List Int) (g : BlockGroup) =>
          (g.BlockInfos.map fun info => info.BlockID) = rows ∧
          ∀ info ∈ g.BlockInfos, ∃ b ∈ (CreateVol f rd uuid st name quota).1.blk,
            b.blkid = info.BlockID ∧ info.DataNodeIP = aton b.hostip ∧
              info.DataNodePort = toInt32 b.hostport)
        (CreateVol f rd uuid st name quota).2.2 groups := by
  rw [CreateVol_ok f rd uuid st name quota hx hret]
  rw [GetVolInfo_noFaults]
  swap
  · intro v hv1 hu
    simp only [hv, Bool.false_eq_true, if_false, List.mem_append, List.mem_singleton] at hv1
    rcases hv1 with hv1 | hv1
    · exact absurd hu (hnew v hv1)
    · rw [hv1]
      simp only [inInt32, decide_eq_true_eq]
      exact ⟨hqlo, hqhi⟩
  generalize hsel : selections rd (blkgrpnum quota).toNat 0 st.blk = sel
  have hselfree : ∀ id ∈ sel.flatten, ∃ b ∈ st.blk, b.blkid = id ∧ b.allocated = 0 := by
    rw [← hsel]
    exact selections_free rd _ _ _
  have hlast : (List.filter (fun v => decide (v.uuid = uuid))
      (st.volumes ++ [{ uuid := uuid, name := name, size := quota }])).getLast? =
      some { uuid := uuid, name := name, size := quota } := by
    rw [List.filter_append]
    simp
  simp only [hv, Bool.false_eq_true, if_false, hlast]
  refine ⟨trivial, _, rfl, ?_⟩
  · rw [filter_uuid_append_mkGroups uuid _ _ _ hfresh]
    generalize hst1 : ({ st with
        volumes := st.volumes ++ [{ uuid := uuid, name := name, size := quota }]
        blk := markBlks sel.flatten st.blk
        blkgrp := st.blkgrp ++ mkGroups uuid st.nextBlkgrpid sel
        nextBlkgrpid := st.nextBlkgrpid + (blkgrpnum quota).toNat } : Store) = st1
    have hblk : st1.blk = markBlks sel.flatten st.blk := by rw [← hst1]
    have hids : st1.blk.map (fun b => b.blkid) = st.blk.map (fun b => b.blkid) := by
      rw [hblk, map_blkid_markBlks]
    have hmem : ∀ id : Int, (∃ b ∈ st1.blk, b.blkid = id) ↔ ∃ b ∈ st.blk, b.blkid = id := by
      intro id
      have h1 : (∃ b ∈ st1.blk, b.blkid = id) ↔ id ∈ st1.blk.map (fun b => b.blkid) := by
        simp [List.mem_map]
      have h2 : (∃ b ∈ st.blk, b.blkid = id) ↔ id ∈ st.blk.map (fun b => b.blkid) := by
        simp [List.mem_map]
      rw [h1, h2, hids]
    have hkey1 : (st1.blk.map fun b => b.blkid).Nodup := by rw [hids]; exact hkey
    have hzero1 : ∀ b ∈ st1.blk, b.blkid ≠ 0 := by
      intro b hb h0
      obtain ⟨c, hc, hcid⟩ := (hmem 0).mp ⟨b, hb, h0⟩
      have := hpos c hc
      omega
    have hall : ∀ rows ∈ sel, ∀ id ∈ rows,
        -2147483648 ≤ id ∧ id ≤ 2147483647 ∧ ∃ b ∈ st1.blk, b.blkid = id := by
      intro rows hrows id hid
      obtain ⟨b, hb, hbid, _⟩ := hselfree id (List.mem_flatten.mpr ⟨rows, hrows, hid⟩)
      have h1 := hpos b hb
      have h2 := hmaxid b hb
      exact ⟨by omega, by omega, (hmem id).mpr ⟨b, hb, hbid⟩⟩
    rw [← hblk]
    clear hsel hselfree hst1 hblk
    generalize st.nextBlkgrpid = first
    induction sel generalizing first with
    | nil => simp [mkGroups]
    | cons rows rest ih =>
      simp only [mkGroups, List.map_cons]
      refine List.Forall₂.cons ?_ (ih (fun r hr => hall r (by simp [hr])) _)
      exact infos_joinIds aton st1 hkey1 hzero1 rows (hall rows (by simp))

/-- Witness for C9 (amended): `CreateVol("vol", 10)` on `threeHosts`, then
`GetVolInfo`. -/
theorem C9_topology_round_trip_witness :
    (CreateVol noCreateVolFaults zeroRand "uuid-1" threeHosts "vol" 10).2 =
      ({ Ret := 0, UUID := "uuid-1" }, [[1, 2, 3]]) ∧
    ∃ groups : List BlockGroup,
      GetVolInfo noGetVolInfoFaults atonLength
          (CreateVol noCreateVolFaults zeroRand "uuid-1" threeHosts "vol" 10).1 "uuid-1" =
        { Ret := 0,
          VolInfo := some { VolID := "uuid-1", VolName := "vol", SpaceQuota := 10,
                            BlockGroups := groups } } ∧
      List.Forall₂
        (fun (rows : List Int) (g : BlockGroup) =>
          (g.BlockInfos.map fun info => info.BlockID) = rows ∧
          ∀ info ∈ g.BlockInfos,
            ∃ b ∈ (CreateVol noCreateVolFaults zeroRand "uuid-1" threeHosts "vol" 10).1.blk,
              b.blkid = info.BlockID ∧ info.DataNodeIP = atonLength b.hostip ∧
                info.DataNodePort = toInt32 b.hostport)
        (CreateVol noCreateVolFaults zeroRand "uuid-1" threeHosts "vol" 10).2.2 groups :=
  ⟨by decide,
   (C9_topology_round_trip noCreateVolFaults zeroRand "uuid-1" threeHosts "vol" 10 atonLength
    (by decide) (by decide) (by decide) (by decide) (by decide) (by decide) (by decide) rfl
    (fun _ => rfl) (by decide)).2⟩

end VolMgr
